import Mathlib

/-!
# Verification of the blueberry-bot wellness bot

Shallow embedding of the parts of the repository relevant to its
specification: the string item-storage helpers (`utils/formatters.py`),
the water-amount parser and rundown status aggregation
(`modules/rundown.py`), the daily-prompt scheduler (`core/scheduler.py`),
the timezone records (`models.py`, `modules/timezone.py`), the goal
operations (`models.py`), and the try/commit/rollback row persistence.

Python strings that are manipulated character-by-character are embedded
as `List Char`; strings used only as identifiers are embedded as `String`.
-/

namespace BlueberryBot

/-! ## Python string primitives over `List Char` -/

/-- Boolean test `pat.isPrefixOf s` coincides with the propositional
relation `pat <+: s`. -/
theorem isPrefixOf_eq_true_iff {pat s : List Char} :
    pat.isPrefixOf s = true ↔ pat <+: s := by
  induction pat generalizing s with
  | nil => simp [List.isPrefixOf]
  | cons c cs ih =>
    cases s with
    | nil => simp [List.isPrefixOf]
    | cons d ds =>
      simp [List.isPrefixOf, ih, List.cons_prefix_cons]

/-- Substring containment test, the embedding of Python's `pat in s`
(for a non-empty `pat`): `pat` occurs contiguously inside `s`. -/
def containsSub (pat : List Char) : List Char → Bool
  | [] => decide (pat = [])
  | c :: cs => pat.isPrefixOf (c :: cs) || containsSub pat cs

theorem mem_of_containsSub {pat s : List Char} (h : containsSub pat s = true) :
    ∀ c ∈ pat, c ∈ s := by
  induction s with
  | nil =>
    intro c hc
    simp [containsSub] at h
    simp [h] at hc
  | cons d ds ih =>
    intro c hc
    simp only [containsSub, Bool.or_eq_true] at h
    rcases h with h | h
    · exact (isPrefixOf_eq_true_iff.mp h).subset hc
    · exact List.mem_cons_of_mem d (ih h c hc)

theorem containsSub_eq_false_of_not_mem {pat s : List Char} {c : Char}
    (hc : c ∈ pat) (hs : c ∉ s) : containsSub pat s = false := by
  cases h : containsSub pat s
  · rfl
  · exact absurd (mem_of_containsSub h c hc) hs

theorem not_isPrefixOf_of_not_containsSub {pat s : List Char}
    (h : containsSub pat s = false) (hs : s ≠ []) : pat.isPrefixOf s = false := by
  cases s with
  | nil => exact absurd rfl hs
  | cons c cs =>
    simp only [containsSub, Bool.or_eq_false_iff] at h
    exact h.1

theorem containsSub_tail {pat : List Char} {c : Char} {cs : List Char}
    (h : containsSub pat (c :: cs) = false) : containsSub pat cs = false := by
  simp only [containsSub, Bool.or_eq_false_iff] at h
  exact h.2

/-- Fuel-driven worker for `splitOn`: splits `s` at each leftmost,
non-overlapping occurrence of the (non-empty) pattern `pat`, exactly as
Python's `str.split(sep)` does.  The fuel is always instantiated with
`s.length`, which suffices because every recursive call consumes at least
one character. -/
def splitOnGo (pat : List Char) : Nat → List Char → List (List Char)
  | _, [] => [[]]
  | 0, s => [s]
  | fuel + 1, c :: cs =>
    if pat.isPrefixOf (c :: cs) then
      [] :: splitOnGo pat fuel (cs.drop (pat.length - 1))
    else
      match splitOnGo pat fuel cs with
      | [] => [[c]]
      | t :: ts => (c :: t) :: ts

/-- Embedding of Python's `s.split(pat)` for a non-empty separator `pat`. -/
def pySplit (pat s : List Char) : List (List Char) := splitOnGo pat s.length s

/-- Embedding of Python's `s.replace(pat, rep)` for a non-empty `pat`:
replace every leftmost non-overlapping occurrence. -/
def pyReplace (pat rep s : List Char) : List Char :=
  List.intercalate rep (pySplit pat s)

/-- Python `str.lower` (ASCII fragment, which covers every string this
bot manipulates). -/
def pyLower (s : List Char) : List Char := s.map Char.toLower

/-- Python `str.strip()`: remove leading and trailing whitespace. -/
def pyStrip (s : List Char) : List Char :=
  (s.dropWhile Char.isWhitespace).reverse.dropWhile Char.isWhitespace |>.reverse

/-- Digit-run parser for Python `int`: a non-empty run of ASCII digits in
which single underscores may appear between digits. -/
def pyDigitsGo : List Char → Nat → Option Nat
  | [], acc => some acc
  | '_' :: c :: cs, acc =>
    if c.isDigit then pyDigitsGo cs (acc * 10 + (c.toNat - 48)) else none
  | c :: cs, acc =>
    if c.isDigit then pyDigitsGo cs (acc * 10 + (c.toNat - 48)) else none

def pyDigits : List Char → Option Nat
  | [] => none
  | c :: cs => if c.isDigit then pyDigitsGo cs (c.toNat - 48) else none

/-- Embedding of Python's `int(text)`: strips whitespace, then an optional
sign followed by digits; `none` models `ValueError`. -/
def pyInt (s : List Char) : Option Int :=
  match pyStrip s with
  | '+' :: r => (pyDigits r).map Int.ofNat
  | '-' :: r => (pyDigits r).map fun n => -(n : Int)
  | r => (pyDigits r).map Int.ofNat

/-! ## `utils/formatters.py`: item storage helpers -/

/-- Constant `ITEM_SEPARATOR = ",,,"` from `utils/formatters.py`. -/
def ITEM_SEPARATOR : List Char := [',', ',', ',']

/-- Embedding of `join_items`: `"" if not items else
ITEM_SEPARATOR.join(items)`. -/
def join_items : List (List Char) → List Char
  | [] => []
  | x :: rest => List.intercalate ITEM_SEPARATOR (x :: rest)

/-- Embedding of `split_items`: `[] if not stored else
stored.split(ITEM_SEPARATOR)`. -/
def split_items : List Char → List (List Char)
  | [] => []
  | c :: cs => pySplit ITEM_SEPARATOR (c :: cs)

theorem split_items_of_ne_nil {s : List Char} (h : s ≠ []) :
    split_items s = pySplit ITEM_SEPARATOR s := by
  cases s with
  | nil => exact absurd rfl h
  | cons c cs => rfl

theorem splitOnGo_fuel_congr (pat : List Char) :
    ∀ f₁ f₂ s, s.length ≤ f₁ → s.length ≤ f₂ →
      splitOnGo pat f₁ s = splitOnGo pat f₂ s := by
  intro f₁
  induction f₁ with
  | zero =>
    intro f₂ s h₁ _
    have : s = [] := List.eq_nil_of_length_eq_zero (Nat.le_zero.mp h₁)
    subst this
    cases f₂ <;> rfl
  | succ f₁ ih =>
    intro f₂ s h₁ h₂
    cases s with
    | nil => cases f₂ <;> rfl
    | cons c cs =>
      cases f₂ with
      | zero => simp at h₂
      | succ f₂ =>
        simp only [splitOnGo]
        by_cases hp : pat.isPrefixOf (c :: cs) = true
        · simp only [hp, if_true]
          have hd : (cs.drop (pat.length - 1)).length ≤ cs.length := by
            simp
          rw [ih f₂ (cs.drop (pat.length - 1))
            (Nat.le_trans hd (Nat.le_of_succ_le_succ h₁))
            (Nat.le_trans hd (Nat.le_of_succ_le_succ h₂))]
        · simp only [Bool.not_eq_true] at hp
          simp only [hp, Bool.false_eq_true, if_false]
          rw [ih f₂ cs (Nat.le_of_succ_le_succ h₁) (Nat.le_of_succ_le_succ h₂)]

theorem pySplit_cons_pos {pat : List Char} {c : Char} {cs : List Char}
    (h : pat.isPrefixOf (c :: cs) = true) :
    pySplit pat (c :: cs) = [] :: pySplit pat (cs.drop (pat.length - 1)) := by
  show splitOnGo pat (cs.length + 1) (c :: cs) = _
  simp only [splitOnGo, h, if_true]
  rw [splitOnGo_fuel_congr pat cs.length (cs.drop (pat.length - 1)).length _
    (by simp) (Nat.le_refl _)]
  rfl

theorem pySplit_cons_neg {pat : List Char} {c : Char} {cs : List Char}
    (h : pat.isPrefixOf (c :: cs) = false) :
    pySplit pat (c :: cs) =
      match pySplit pat cs with
      | [] => [[c]]
      | t :: ts => (c :: t) :: ts := by
  show splitOnGo pat (cs.length + 1) (c :: cs) = _
  simp only [splitOnGo, h, Bool.false_eq_true, if_false]
  rfl

/-- Splitting a string that does not contain the separator yields the
singleton list. -/
theorem pySplit_of_not_contains {pat x : List Char}
    (h : containsSub pat x = false) : pySplit pat x = [x] := by
  induction x with
  | nil => rfl
  | cons c cs ih =>
    rw [pySplit_cons_neg (not_isPrefixOf_of_not_containsSub h (by simp)),
      ih (containsSub_tail h)]

theorem getLast?_cons_of_ne_nil {c : Char} {x : List Char} (h : x ≠ []) :
    (c :: x).getLast? = x.getLast? := by
  cases x with
  | nil => exact absurd rfl h
  | cons a t => simp [List.getLast?]

/-- A char list with `",,,"` as a prefix starts with three commas. -/
theorem sep_prefix_cases {s : List Char}
    (h : ITEM_SEPARATOR.isPrefixOf s = true) :
    ∃ t, s = ',' :: ',' :: ',' :: t := by
  rcases s with _ | ⟨a, _ | ⟨b, _ | ⟨c, t⟩⟩⟩ <;>
    simp only [ITEM_SEPARATOR, List.isPrefixOf, Bool.and_eq_true, beq_iff_eq,
      Bool.false_eq_true, and_false, false_and, and_true] at h
  obtain ⟨h₁, h₂, h₃⟩ := h
  subst h₁; subst h₂; subst h₃
  exact ⟨t, rfl⟩

/-- Key splitting step for the `",,,"` separator: a segment that neither
contains the separator nor ends in a comma is split off whole. -/
theorem pySplit_sep_append {x r : List Char}
    (h₁ : containsSub ITEM_SEPARATOR x = false)
    (h₂ : x.getLast? ≠ some ',') :
    pySplit ITEM_SEPARATOR (x ++ ITEM_SEPARATOR ++ r) =
      x :: pySplit ITEM_SEPARATOR r := by
  induction x with
  | nil =>
    have hp : ITEM_SEPARATOR.isPrefixOf
        ([] ++ ITEM_SEPARATOR ++ r : List Char) = true := by
      simp [ITEM_SEPARATOR, List.isPrefixOf]
    rw [show ([] ++ ITEM_SEPARATOR ++ r : List Char) = ',' :: (',' :: ',' :: r) from rfl]
      at hp ⊢
    rw [pySplit_cons_pos hp]
    rfl
  | cons c x' ih =>
    have hne : ITEM_SEPARATOR.isPrefixOf (c :: (x' ++ ITEM_SEPARATOR ++ r)) = false := by
      cases hb : ITEM_SEPARATOR.isPrefixOf (c :: (x' ++ ITEM_SEPARATOR ++ r))
      · rfl
      · exfalso
        obtain ⟨t₀, ht⟩ := sep_prefix_cases hb
        rcases x' with _ | ⟨c₁, _ | ⟨c₂, x₃⟩⟩
        · simp only [List.nil_append, List.cons.injEq] at ht
          exact h₂ (by simp [ht.1])
        · simp only [List.cons_append, List.nil_append, List.cons.injEq] at ht
          exact h₂ (by simp [ht.2.1])
        · simp only [List.cons_append, List.cons.injEq] at ht
          obtain ⟨hc, hc₁, hc₂, -⟩ := ht
          subst hc; subst hc₁; subst hc₂
          simp [containsSub, List.isPrefixOf] at h₁
    rw [show (c :: x') ++ ITEM_SEPARATOR ++ r = c :: (x' ++ ITEM_SEPARATOR ++ r) from rfl]
    rw [pySplit_cons_neg hne]
    have hx'last : x'.getLast? ≠ some ',' := by
      cases hx : x' with
      | nil => simp
      | cons a t =>
        rw [← hx]
        rw [getLast?_cons_of_ne_nil (by simp [hx])] at h₂
        exact h₂
    rw [ih (containsSub_tail h₁) hx'last]

theorem intercalate_cons_cons {x y : List Char} {rest : List (List Char)} :
    List.intercalate ITEM_SEPARATOR (x :: y :: rest) =
      x ++ ITEM_SEPARATOR ++ List.intercalate ITEM_SEPARATOR (y :: rest) := by
  simp [List.intercalate, List.intersperse, List.append_assoc]

/-- A joined list whose first item is non-empty is non-empty. -/
theorem intercalate_ne_nil {x : List Char} {rest : List (List Char)}
    (hx : x ≠ []) : List.intercalate ITEM_SEPARATOR (x :: rest) ≠ [] := by
  cases rest with
  | nil => simpa [List.intercalate] using hx
  | cons y t =>
    rw [intercalate_cons_cons]
    intro h
    have hlen := congrArg List.length h
    simp [ITEM_SEPARATOR] at hlen

/-- Statement of claim C9 exactly as written: for every non-empty list of
non-empty strings none of which contains the separator `",,,"`,
`split_items (join_items items) = items`; and the empty cases. -/
def c9ClaimStatement : Prop :=
  (∀ items : List (List Char), items ≠ [] →
    (∀ x ∈ items, x ≠ [] ∧ containsSub ITEM_SEPARATOR x = false) →
    split_items (join_items items) = items) ∧
  join_items [] = [] ∧ split_items [] = []

/-- C9 counterexample: the round trip fails for `["a,", "b"]`, whose items
are non-empty and do not contain `",,,"`, yet
`join_items ["a,", "b"] = "a,,,,b"` splits back to `["a", ",b"]`. -/
theorem c9_roundtrip_counterexample : ¬ c9ClaimStatement := by
  intro h
  have hx := h.1 [['a', ','], ['b']] (by decide) (by decide)
  exact absurd hx (by decide)

/-- C9 (amended): storing and re-reading multi-item content round-trips
for every non-empty list of non-empty strings none of which contains the
separator `",,,"` and none of which ends with the character `','`;
moreover `join_items [] = ""` and `split_items "" = []`. -/
theorem c9_roundtrip_amended :
    (∀ items : List (List Char), items ≠ [] →
      (∀ x ∈ items, x ≠ [] ∧ containsSub ITEM_SEPARATOR x = false ∧
        x.getLast? ≠ some ',') →
      split_items (join_items items) = items) ∧
    join_items [] = [] ∧ split_items [] = [] := by
  refine ⟨?_, rfl, rfl⟩
  intro items
  induction items with
  | nil => intro h _; exact absurd rfl h
  | cons x rest ih =>
    intro _ hall
    obtain ⟨hx, hcx, hlx⟩ := hall x (List.mem_cons_self x rest)
    cases rest with
    | nil =>
      have hj : join_items [x] = x := by
        simp [join_items, List.intercalate]
      rw [hj, split_items_of_ne_nil hx, pySplit_of_not_contains hcx]
    | cons y rest' =>
      have hy : y ≠ [] := (hall y (by simp)).1
      have hJ : join_items (y :: rest') ≠ [] := intercalate_ne_nil hy
      have hjoin : join_items (x :: y :: rest') =
          x ++ ITEM_SEPARATOR ++ join_items (y :: rest') := by
        show List.intercalate ITEM_SEPARATOR (x :: y :: rest') = _
        exact intercalate_cons_cons
      have hne : x ++ ITEM_SEPARATOR ++ join_items (y :: rest') ≠ [] := by
        cases x <;> simp [ITEM_SEPARATOR]
      rw [hjoin, split_items_of_ne_nil hne, pySplit_sep_append hcx hlx,
        ← split_items_of_ne_nil hJ,
        ih (by simp) fun z hz => hall z (List.mem_cons_of_mem x hz)]

/-- Witness for C9 (amended) at the concrete input `["hi", "yo"]`. -/
theorem c9_roundtrip_amended_witness :
    split_items (join_items [['h', 'i'], ['y', 'o']]) = [['h', 'i'], ['y', 'o']] :=
  c9_roundtrip_amended.1 [['h', 'i'], ['y', 'o']] (by decide) (by decide)

/-! ## `modules/rundown.py`: `parse_water_amount` -/

/-- Digit-only run parser (used for the decimal fragment of `float`). -/
def decDigits (l : List Char) : Option Nat :=
  if l.isEmpty then none
  else if l.all Char.isDigit then
    some (l.foldl (fun a c => a * 10 + (c.toNat - 48)) 0)
  else none

/-- Embedding of `int(float(s) * mult)` for the decimal fragment of
Python's `float` (optional sign, ASCII digits, optional single `'.'`;
exponents, `inf`/`nan` and digit-group underscores are outside the
fragment this bot can reach and are mapped to `none`).  The
multiplication is exact and the final `int` truncates toward zero. -/
def pyFloatTimesInt (s : List Char) (mult : Nat) : Option Int :=
  let t := pyStrip s
  let sb : Int × List Char :=
    match t with
    | '+' :: r => (1, r)
    | '-' :: r => (-1, r)
    | r => (1, r)
  match pySplit ['.'] sb.2 with
  | [ip] => (decDigits ip).map fun n => sb.1 * ((n * mult : Nat) : Int)
  | [ip, fp] =>
    if ip.isEmpty && fp.isEmpty then none
    else
      match (if ip.isEmpty then some 0 else decDigits ip),
            (if fp.isEmpty then some 0 else decDigits fp) with
      | some a, some b =>
        some (sb.1 * (((a * 10 ^ fp.length + b) * mult) / 10 ^ fp.length : Nat))
      | _, _ => none
  | _ => none

/-- Embedding of `parse_water_amount` from `modules/rundown.py`:
lowercase and strip, then try `ml`, liters, glasses, and finally a bare
number (numbers below 50 are read as glasses of 250 ml); `none` models
returning `None`. -/
def parse_water_amount (raw : List Char) : Option Int :=
  let text := pyStrip (pyLower raw)
  let fromMl : Option Int :=
    if containsSub ['m', 'l'] text then
      pyInt (pyStrip (pyReplace ['m', 'l'] [] text))
    else none
  let fromL : Option Int :=
    if containsSub ['l'] text || containsSub ['l', 'i', 't', 'e', 'r'] text ||
        containsSub ['l', 'i', 't', 'r', 'e'] text then
      let r1 := pyReplace ['l', 'i', 't', 'e', 'r', 's'] [] text
      let r2 := pyReplace ['l', 'i', 't', 'r', 'e', 's'] [] r1
      let r3 := pyReplace ['l', 'i', 't', 'e', 'r'] [] r2
      let r4 := pyReplace ['l', 'i', 't', 'r', 'e'] [] r3
      let r5 := pyReplace ['l'] [] r4
      pyFloatTimesInt (pyStrip r5) 1000
    else none
  let fromGlass : Option Int :=
    if containsSub ['g', 'l', 'a', 's', 's'] text then
      pyFloatTimesInt
        (pyStrip (pyReplace ['g', 'l', 'a', 's', 's'] []
          (pyReplace ['g', 'l', 'a', 's', 's', 'e', 's'] [] text))) 250
    else none
  let fromPlain : Option Int :=
    (pyInt text).map fun n => if n < 50 then n * 250 else n
  match fromMl with
  | some v => some v
  | none =>
    match fromL with
    | some v => some v
    | none =>
      match fromGlass with
      | some v => some v
      | none => fromPlain

/-! ## Data model (`models.py`)

Dates are embedded as `Int` (an ordinal day number) and datetimes as a
day/minute pair; `created_at` columns, which the code only ever compares
for ordering, are embedded as `Nat` timestamps. -/

/-- Datetime embedding: `dateOf` is `func.date(col)` / `.date()`. -/
structure PyDateTime where
  day : Int
  minute : Nat
deriving DecidableEq, Repr

def PyDateTime.dateOf (dt : PyDateTime) : Int := dt.day

/-- Row of the `users` table (the columns the claims touch). -/
structure UserRow where
  id : Nat
  chat_id : Int
  created_at : PyDateTime
deriving DecidableEq, Repr

/-- Row of the `timezones` table. -/
structure TimezoneRow where
  user_id : Nat
  timezone_name : String
  timezone_offset : String
  effective_from : Int
  created_at : Nat
deriving DecidableEq, Repr

/-- Row of the `user_settings` table (prompt schedule columns). -/
structure UserSettingsRow where
  user_id : Nat
  gratitude_time : List Char
  themeoftheday_time : List Char
  affirmation_time : List Char
  selflove_time : List Char
  gratitude_enabled : Nat
  themeoftheday_enabled : Nat
  affirmation_enabled : Nat
  selflove_enabled : Nat
deriving DecidableEq, Repr

structure WakesleepRow where
  user_id : Nat
  sleeptime : PyDateTime
  wakeuptime : PyDateTime
deriving DecidableEq, Repr

structure FoodRow where
  user_id : Nat
  food_time : PyDateTime
  food_label : String
deriving DecidableEq, Repr

structure WaterRow where
  user_id : Nat
  water_time : PyDateTime
  amount_ml : Int
  created_at : PyDateTime
deriving DecidableEq, Repr

structure GymRow where
  user_id : Nat
  gym_datetime : PyDateTime
  gym_type : String
deriving DecidableEq, Repr

structure YogaRow where
  user_id : Nat
  yoga_datetime : PyDateTime
  yoga_type : String
deriving DecidableEq, Repr

structure PranayamRow where
  user_id : Nat
  pranayam_datetime : PyDateTime
  pranayam_type : String
deriving DecidableEq, Repr

structure ThoughtRow where
  user_id : Nat
  content : List Char
  created_at : PyDateTime
deriving DecidableEq, Repr

structure TaskRow where
  user_id : Nat
  content : List Char
  created_at : PyDateTime
deriving DecidableEq, Repr

/-- Row shape shared by the four daily-reflection tables (`gratitudes`,
`themes_of_the_day`, `affirmations`, `self_loves`). -/
structure ReflectionRow where
  user_id : Nat
  prompt_date : Int
  content : List Char
  created_at : PyDateTime
deriving DecidableEq, Repr

/-- Row of the `goals` table. -/
structure GoalRow where
  user_id : Nat
  area : String
  goal_text : String
  updated_at : Nat
deriving DecidableEq, Repr

/-- The relational state: one list per table, in insertion order. -/
structure DB where
  users : List UserRow
  timezones : List TimezoneRow
  user_settings : List UserSettingsRow
  wakesleeps : List WakesleepRow
  foods : List FoodRow
  waters : List WaterRow
  gyms : List GymRow
  yogas : List YogaRow
  pranayams : List PranayamRow
  thoughts : List ThoughtRow
  tasks : List TaskRow
  gratitudes : List ReflectionRow
  themes_of_the_day : List ReflectionRow
  affirmations : List ReflectionRow
  self_loves : List ReflectionRow
  goals : List GoalRow
deriving DecidableEq, Repr

/-- Relationship `user.timezones`: rows of `timezones` with this user id. -/
def userTimezones (db : DB) (uid : Nat) : List TimezoneRow :=
  db.timezones.filter (·.user_id == uid)

/-- Result of `ORDER BY created_at DESC ... first()` on a row list kept in
insertion order: the first-inserted row among those with maximal
`created_at` (a stable descending sort keeps equal keys in table order). -/
def latestByCreatedAt : List TimezoneRow → Option TimezoneRow
  | [] => none
  | r :: rs =>
    match latestByCreatedAt rs with
    | none => some r
    | some b => if b.created_at > r.created_at then some b else some r

/-- `User.get_current_timezone`: the user's timezone rows ordered by
`created_at` descending, first row. -/
def get_current_timezone (db : DB) (uid : Nat) : Option TimezoneRow :=
  latestByCreatedAt (userTimezones db uid)

/-- `User.get_by_id`. -/
def get_user_by_id (db : DB) (uid : Nat) : Option UserRow :=
  db.users.find? (·.id == uid)

/-! ## Scheduler (`core/scheduler.py`) -/

/-- Zone names `pytz` can resolve among those this bot ever stores (the
`TIMEZONE_DATA` table of `modules/timezone.py`); a `pytz` timezone object
is identified by its zone name. -/
def pytzKnownTimezones : List String :=
  ["Asia/Kolkata", "Europe/London", "Pacific/Honolulu", "America/Anchorage",
   "America/Los_Angeles", "America/Denver", "America/Chicago", "America/New_York"]

/-- Model of `pytz.timezone`: `none` is `UnknownTimeZoneError`. -/
def pytzTimezone (name : String) : Option String :=
  if name ∈ pytzKnownTimezones then some name else none

/-- `get_user_timezone`: resolve the user's current timezone record's
`timezone_name` through `pytz`. -/
def get_user_timezone (db : DB) (uid : Nat) : Option String :=
  match get_current_timezone db uid with
  | none => none
  | some r => pytzTimezone r.timezone_name

/-- Environment clock: `localDate tz` is `datetime.now(tz).date()` and
`serverDate` is `datetime.now().date()`. -/
structure Clock where
  serverDate : Int
  localDate : String → Int

/-- `get_user_local_date`: the current date in the user's timezone,
falling back to the server date when the user has no usable timezone. -/
def get_user_local_date (db : DB) (clock : Clock) (uid : Nat) : Int :=
  match get_user_timezone db uid with
  | some tz => clock.localDate tz
  | none => clock.serverDate

/-- Default `UserSettings` row (`models.py` column defaults). -/
def defaultSettings (uid : Nat) : UserSettingsRow :=
  ⟨uid, "07:00".toList, "07:30".toList, "08:00".toList, "21:00".toList, 1, 1, 1, 1⟩

/-- `UserSettings.get_or_create`: the existing row, or the default row.
(The `create` side also inserts the default row; the inserted row never
changes the jobs computed from it.) -/
def get_or_create_settings (db : DB) (uid : Nat) : UserSettingsRow :=
  (db.user_settings.find? (·.user_id == uid)).getD (defaultSettings uid)

/-- `UserSettings.get_schedule_dict` as an insertion-ordered association
list: prompt type, `"HH:MM"` time string, enabled flag. -/
def get_schedule_dict (s : UserSettingsRow) : List (String × List Char × Bool) :=
  [("gratitude", s.gratitude_time, s.gratitude_enabled != 0),
   ("themeoftheday", s.themeoftheday_time, s.themeoftheday_enabled != 0),
   ("affirmation", s.affirmation_time, s.affirmation_enabled != 0),
   ("selflove", s.selflove_time, s.selflove_enabled != 0)]

/-- `parse_time_string`: split on `':'` and read the first two fields as
integers; `none` models the uncaught exception. -/
def parse_time_string (s : List Char) : Option (Int × Int) :=
  match pySplit [':'] s with
  | p0 :: p1 :: _ =>
    match pyInt p0, pyInt p1 with
    | some h, some m => some (h, m)
    | _, _ => none
  | _ => none

/-- Python `datetime.time(hour, minute, tzinfo)`: a wall-clock time
carrying a timezone. -/
structure LocalTime where
  hour : Int
  minute : Int
  tz : String
deriving DecidableEq, Repr

/-- Constructor validation of `datetime.time`. -/
def mkLocalTime (h m : Int) (tz : String) : Option LocalTime :=
  if 0 ≤ h ∧ h ≤ 23 ∧ 0 ≤ m ∧ m ≤ 59 then some ⟨h, m, tz⟩ else none

structure JobData where
  chat_id : Int
  user_id : Nat
  prompt_type : String
deriving DecidableEq, Repr

/-- A job registered with the job queue by `run_daily`. -/
structure Job where
  name : String
  time : LocalTime
  days : List Nat
  data : JobData
deriving DecidableEq, Repr

def remove_job_by_name (jq : List Job) (n : String) : List Job :=
  jq.filter (·.name != n)

def jobNameFor (pt : String) (chat_id : Int) : String :=
  "prompt_" ++ pt ++ "_" ++ toString chat_id

/-- One iteration of the loop in `schedule_daily_prompts_for_user`: remove
a stale job, then register the prompt if enabled.  The `Bool` is true when
the iteration raises (bad time string), which aborts the whole loop;
errors raised by `run_daily` itself are caught and logged. -/
def scheduleOne (jq : List Job) (user : UserRow) (tz : String)
    (pt : String) (timeStr : List Char) (enabled : Bool) : List Job × Bool :=
  let jq1 := remove_job_by_name jq (jobNameFor pt user.chat_id)
  if !enabled then (jq1, false)
  else
    match parse_time_string timeStr with
    | none => (jq1, true)
    | some hm =>
      match mkLocalTime hm.1 hm.2 tz with
      | none => (jq1, true)
      | some t =>
        (jq1 ++ [⟨jobNameFor pt user.chat_id, t, [0, 1, 2, 3, 4, 5, 6],
          ⟨user.chat_id, user.id, pt⟩⟩], false)

def scheduleLoop (user : UserRow) (tz : String) :
    List Job → List (String × List Char × Bool) → List Job × Bool
  | jq, [] => (jq, false)
  | jq, (pt, timeStr, en) :: rest =>
    let r := scheduleOne jq user tz pt timeStr en
    if r.2 then (r.1, true) else scheduleLoop user tz r.1 rest

/-- `schedule_daily_prompts_for_user`: register one daily job per enabled
prompt at the configured local time in the user's timezone.  Returns the
job queue and whether an exception escaped. -/
def schedule_daily_prompts_for_user (jq : List Job) (db : DB) (user : UserRow) :
    List Job × Bool :=
  match get_user_timezone db user.id with
  | none => (jq, false)
  | some tz =>
    scheduleLoop user tz jq (get_schedule_dict (get_or_create_settings db user.id))

/-- Dictionary `PROMPT_MODELS` of `core/scheduler.py`, as the map from
prompt type to the corresponding reflection table of the database. -/
def promptTable (db : DB) : String → Option (List ReflectionRow)
  | "gratitude" => some db.gratitudes
  | "themeoftheday" => some db.themes_of_the_day
  | "selflove" => some db.self_loves
  | "affirmation" => some db.affirmations
  | _ => none

/-- `DailyReflectionBase.get_for_date`: first row for this user and date. -/
def get_for_date (rows : List ReflectionRow) (uid : Nat) (d : Int) :
    Option ReflectionRow :=
  rows.find? fun r => r.user_id == uid && r.prompt_date == d

/-- `DailyReflectionBase.exists_for_date`. -/
def exists_for_date (rows : List ReflectionRow) (uid : Nat) (d : Int) : Bool :=
  (get_for_date rows uid d).isSome

/-- Dictionary `PROMPT_MESSAGES` with its `"Daily prompt"` default. -/
def promptMessage : String → String
  | "gratitude" => "Good morning! What are the top 3 things you are grateful for today?\n\nUse /gratitude to answer, or /skip to skip."
  | "themeoftheday" => "What is your theme for today?\n\nThis could be a focus area, intention, or goal.\nUse /themeoftheday to set it, or /skip to skip.\n\nI'll remind you about your theme 3 times during the day!"
  | "affirmation" => "Time for your daily affirmations!\n\nWhat positive statements do you want to affirm today?\nUse /affirmation to set them, or /skip to skip."
  | "selflove" => "Good evening! Write 3 things you love about yourself.\n\nTake a moment to appreciate who you are.\nUse /selflove to answer, or /skip to skip."
  | _ => "Daily prompt"

/-- `send_daily_prompt` (the job callback): `none` when no message is sent
(user missing, or the prompt was already answered for the user's current
local date); `some msg` when the prompt text is pushed. -/
def send_daily_prompt (db : DB) (clock : Clock) (jd : JobData) : Option String :=
  match get_user_by_id db jd.user_id with
  | none => none
  | some user =>
    let today := get_user_local_date db clock user.id
    let answered : Bool :=
      match promptTable db jd.prompt_type with
      | some rows => exists_for_date rows jd.user_id today
      | none => false
    if answered then none
    else some (promptMessage jd.prompt_type)

/-! ## `/rundown` status aggregation (`modules/rundown.py`) -/

/-- Order of items checked by `/rundown` (`RUNDOWN_ORDER`). -/
def RUNDOWN_ORDER : List String :=
  ["sleep", "food", "water", "gym", "yoga", "pranayam", "thought", "task",
   "gratitude", "themeoftheday", "affirmation", "selflove"]

/-- Sum `func.sum(Water.amount_ml)` over today's water rows (`or 0`). -/
def waterTotalToday (db : DB) (uid : Nat) (today : Int) : Int :=
  ((db.waters.filter fun w => w.user_id == uid && w.water_time.dateOf == today).map
    (·.amount_ml)).sum

/-- Dictionary computed by `get_today_status`, restricted to its `logged`
flags (the `summary` strings play no role in which items are missing). -/
structure TodayStatus where
  sleep : Bool
  food : Bool
  water : Bool
  gym : Bool
  yoga : Bool
  pranayam : Bool
  thought : Bool
  task : Bool
  gratitude : Bool
  themeoftheday : Bool
  affirmation : Bool
  selflove : Bool
deriving DecidableEq, Repr

/-- `get_today_status`: one filtered query per activity table for `today`;
`water` is logged when the day's `amount_ml` total is truthy (non-zero). -/
def get_today_status (db : DB) (uid : Nat) (today : Int) : TodayStatus where
  sleep :=
    !(db.wakesleeps.filter fun r => r.user_id == uid && r.wakeuptime.dateOf == today).isEmpty
  food :=
    !(db.foods.filter fun r => r.user_id == uid && r.food_time.dateOf == today).isEmpty
  water := waterTotalToday db uid today != 0
  gym :=
    !(db.gyms.filter fun r => r.user_id == uid && r.gym_datetime.dateOf == today).isEmpty
  yoga :=
    !(db.yogas.filter fun r => r.user_id == uid && r.yoga_datetime.dateOf == today).isEmpty
  pranayam :=
    !(db.pranayams.filter fun r => r.user_id == uid && r.pranayam_datetime.dateOf == today).isEmpty
  thought :=
    !(db.thoughts.filter fun r => r.user_id == uid && r.created_at.dateOf == today).isEmpty
  task :=
    !(db.tasks.filter fun r => r.user_id == uid && r.created_at.dateOf == today).isEmpty
  gratitude := (get_for_date db.gratitudes uid today).isSome
  themeoftheday := (get_for_date db.themes_of_the_day uid today).isSome
  affirmation := (get_for_date db.affirmations uid today).isSome
  selflove := (get_for_date db.self_loves uid today).isSome

/-- Lookup `status[key]['logged']` (keys outside the dict do not occur). -/
def statusLogged (st : TodayStatus) : String → Bool
  | "sleep" => st.sleep
  | "food" => st.food
  | "water" => st.water
  | "gym" => st.gym
  | "yoga" => st.yoga
  | "pranayam" => st.pranayam
  | "thought" => st.thought
  | "task" => st.task
  | "gratitude" => st.gratitude
  | "themeoftheday" => st.themeoftheday
  | "affirmation" => st.affirmation
  | "selflove" => st.selflove
  | _ => false

/-- Missing-item list computed by `rundown`:
`[key for key in RUNDOWN_ORDER if not status[key]['logged']]`. -/
def rundownMissing (db : DB) (uid : Nat) (today : Int) : List String :=
  RUNDOWN_ORDER.filter fun k => !statusLogged (get_today_status db uid today) k

/-! ## Row persistence: sessions, commits and rollbacks -/

/-- The four daily-reflection tables (the values of `PROMPT_MODELS`). -/
inductive PromptTable
  | gratitude
  | themeoftheday
  | affirmation
  | selflove
deriving DecidableEq, Repr

/-- Dictionary `PROMPT_MODELS` as used by `modules/rundown.py` and
`modules/dailyprompts.py`. -/
def promptModelOf : String → Option PromptTable
  | "gratitude" => some .gratitude
  | "themeoftheday" => some .themeoftheday
  | "affirmation" => some .affirmation
  | "selflove" => some .selflove
  | _ => none

def reflTable (db : DB) : PromptTable → List ReflectionRow
  | .gratitude => db.gratitudes
  | .themeoftheday => db.themes_of_the_day
  | .affirmation => db.affirmations
  | .selflove => db.self_loves

def setReflTable (db : DB) (pt : PromptTable) (rows : List ReflectionRow) : DB :=
  match pt with
  | .gratitude => { db with gratitudes := rows }
  | .themeoftheday => { db with themes_of_the_day := rows }
  | .affirmation => { db with affirmations := rows }
  | .selflove => { db with self_loves := rows }

/-- A row staged by `session.add` and not yet committed. -/
inductive PendingRow
  | timezone (r : TimezoneRow)
  | water (r : WaterRow)
  | thought (r : ThoughtRow)
  | task (r : TaskRow)
  | reflection (pt : PromptTable) (r : ReflectionRow)
deriving DecidableEq, Repr

/-- Committing a staged row appends it to its table. -/
def applyRow (db : DB) : PendingRow → DB
  | .timezone r => { db with timezones := db.timezones ++ [r] }
  | .water r => { db with waters := db.waters ++ [r] }
  | .thought r => { db with thoughts := db.thoughts ++ [r] }
  | .task r => { db with tasks := db.tasks ++ [r] }
  | .reflection pt r => setReflTable db pt (reflTable db pt ++ [r])

/-- An open ORM session: committed database plus staged rows. -/
structure DbSession where
  committed : DB
  pending : List PendingRow
deriving DecidableEq, Repr

def DbSession.addRow (s : DbSession) (p : PendingRow) : DbSession :=
  { s with pending := s.pending ++ [p] }

/-- Model of `session.commit()`: on success all staged rows are applied
atomically; on failure (`ok = false`, the raised exception) nothing is. -/
def DbSession.commitRows (s : DbSession) (ok : Bool) : DbSession × Bool :=
  if ok then ({ committed := s.pending.foldl applyRow s.committed, pending := [] }, true)
  else (s, false)

def DbSession.rollbackRows (s : DbSession) : DbSession :=
  { s with pending := [] }

/-- The `try: session.add(row); session.commit() except: session.rollback()`
pattern shared by every save in the repository, run on a fresh session. -/
def runInsertCommit (db : DB) (p : PendingRow) (ok : Bool) : DB :=
  let s1 := (DbSession.mk db []).addRow p
  match s1.commitRows ok with
  | (s2, true) => s2.committed
  | (s2, false) => s2.rollbackRows.committed

def get_user_by_chat_id (db : DB) (chat_id : Int) : Option UserRow :=
  db.users.find? (·.chat_id == chat_id)

/-- Choice of the `effective_from` date in `save_timezone`
(`modules/timezone.py`): since registration, yesterday, or today. -/
def effective_date_of (selection : String) (user : UserRow) (today : Int) : Int :=
  if selection == "sincefirstday" then user.created_at.dateOf
  else if selection == "yesterday" then today - 1
  else today

/-- `save_timezone` from `modules/timezone.py`: build the row from the
conversation data, then add/commit with rollback on failure.  The `Bool`
result reports whether the row was committed. -/
def save_timezone (db : DB) (chat_id : Int) (tzname tzoffset : String)
    (selection : String) (today : Int) (now : Nat) (ok : Bool) : DB × Bool :=
  match get_user_by_chat_id db chat_id with
  | none => (db, false)
  | some user =>
    let row : TimezoneRow :=
      ⟨user.id, tzname, tzoffset, effective_date_of selection user today, now⟩
    (runInsertCommit db (.timezone row) ok, ok)

/-- Flag `has_reminders` of `PROMPT_CONFIG` in `modules/dailyprompts.py`:
set only for the theme-of-the-day prompt. -/
def promptHasReminders : PromptTable → Bool
  | .themeoftheday => true
  | _ => false

/-- Database effect of `schedule_theme_reminders` (`core/scheduler.py`):
after resolving the user's timezone it calls `UserSettings.get_or_create`,
which inserts and commits a default `user_settings` row when the user has
none (`okSettings = false` models that commit raising, which rolls back
only the staged settings row).  The `run_once` job registrations and the
`theme_reminders_enabled` check that follow touch no table. -/
def schedule_theme_reminders_db (db : DB) (uid : Nat) (okSettings : Bool) : DB :=
  match get_user_timezone db uid with
  | none => db
  | some _ =>
    match db.user_settings.find? (·.user_id == uid) with
    | some _ => db
    | none =>
      if okSettings then
        { db with user_settings := db.user_settings ++ [defaultSettings uid] }
      else db

/-- `save_prompt` from `modules/dailyprompts.py`: join the collected
items, insert one row into the prompt's table (add/commit with rollback
on failure), and — still inside the same try block and session — for a
prompt with `has_reminders` run `schedule_theme_reminders` when a job
queue is present.  `hasJobQueue` models `context.job_queue` being set and
the preceding success reply not raising. -/
def save_prompt (db : DB) (pt : PromptTable) (chat_id : Int) (prompt_date : Int)
    (items : List (List Char)) (now : PyDateTime) (hasJobQueue : Bool)
    (ok okSettings : Bool) : DB :=
  match get_user_by_chat_id db chat_id with
  | none => db
  | some user =>
    let db1 :=
      runInsertCommit db (.reflection pt ⟨user.id, prompt_date, join_items items, now⟩) ok
    if ok && promptHasReminders pt && hasJobQueue then
      schedule_theme_reminders_db db1 user.id okSettings
    else db1

/-- What happened in one `save_current_item` call. -/
inductive RundownOutcome
  | saved
  | userNotFound
  | waterUnparsed
  | redirected
  | errored
deriving DecidableEq, Repr

/-- `save_current_item` from `modules/rundown.py`: dispatch on the current
item, insert a single row (add/commit, rollback on failure), or skip for
unparseable water / items handled by dedicated commands. -/
def save_current_item (db : DB) (current_item : String) (items : List (List Char))
    (today : Int) (user_id : Nat) (now : PyDateTime) (ok : Bool) :
    DB × RundownOutcome :=
  match get_user_by_id db user_id with
  | none => (db, .userNotFound)
  | some user =>
    let commitOne : PendingRow → DB × RundownOutcome := fun p =>
      (runInsertCommit db p ok,
       if ok then RundownOutcome.saved else RundownOutcome.errored)
    if current_item == "thought" then
      commitOne (.thought ⟨user.id, join_items items, now⟩)
    else if current_item == "task" then
      commitOne (.task ⟨user.id, join_items items, now⟩)
    else
      match promptModelOf current_item with
      | some pt => commitOne (.reflection pt ⟨user.id, today, join_items items, now⟩)
      | none =>
        if current_item == "water" then
          match items with
          | [] => (db, .errored)
          | txt :: _ =>
            match parse_water_amount txt with
            | some amount =>
              if amount ≠ 0 then
                commitOne (.water ⟨user.id, now, amount, now⟩)
              else (db, .waterUnparsed)
            | none => (db, .waterUnparsed)
        else (db, .redirected)

/-! ## Goals (`models.py`, class `Goal`) -/

/-- `Goal.get_by_user_and_area`: first row for this user and area. -/
def get_by_user_and_area (goals : List GoalRow) (uid : Nat) (area : String) :
    Option GoalRow :=
  goals.find? fun g => g.user_id == uid && g.area == area

/-- In-place update of the first matching row (`existing.goal_text = ...;
existing.updated_at = ...`). -/
def replaceFirstGoal (goals : List GoalRow) (uid : Nat) (area : String)
    (text : String) (now : Nat) : List GoalRow :=
  match goals with
  | [] => []
  | g :: gs =>
    if g.user_id == uid && g.area == area then
      { g with goal_text := text, updated_at := now } :: gs
    else g :: replaceFirstGoal gs uid area text now

/-- `Goal.set_goal`: update the existing row in place, or insert a new one. -/
def set_goal (goals : List GoalRow) (uid : Nat) (area : String)
    (text : String) (now : Nat) : List GoalRow :=
  match get_by_user_and_area goals uid area with
  | some _ => replaceFirstGoal goals uid area text now
  | none => goals ++ [⟨uid, area, text, now⟩]

/-- `Goal.delete_goal`: delete the first matching row, if any. -/
def delete_goal (goals : List GoalRow) (uid : Nat) (area : String) : List GoalRow :=
  goals.eraseP fun g => g.user_id == uid && g.area == area

/-- Number of rows with the given `(user_id, area)` key. -/
def goalKeyCount (goals : List GoalRow) (uid : Nat) (area : String) : Nat :=
  (goals.filter fun g => g.user_id == uid && g.area == area).length

/-- The `uq_user_goal_area` uniqueness constraint as a state invariant. -/
def goalsUnique (goals : List GoalRow) : Prop :=
  ∀ uid area, goalKeyCount goals uid area ≤ 1

/-- Database with every table empty (used for concrete instances). -/
def emptyDB : DB := ⟨[], [], [], [], [], [], [], [], [], [], [], [], [], [], [], []⟩

/-- Number of messages pushed by one firing of the daily-prompt job. -/
def promptSendCount (db : DB) (clock : Clock) (jd : JobData) : Nat :=
  match send_daily_prompt db clock jd with
  | none => 0
  | some _ => 1

/-! ## Claim theorems -/

/-- C1: a scheduled daily prompt is sent at most once per local day.
`run_daily` fires the job once per day; one firing pushes at most one
message, and pushes none when a record of that prompt type already exists
for the user's current local date (`exists_for_date` returns true). -/
theorem c1_prompt_at_most_once_per_day :
    ∀ (db : DB) (clock : Clock) (jd : JobData) (rows : List ReflectionRow),
      promptSendCount db clock jd ≤ 1 ∧
      (promptTable db jd.prompt_type = some rows →
        ∀ user, get_user_by_id db jd.user_id = some user →
          exists_for_date rows jd.user_id (get_user_local_date db clock user.id) = true →
          send_daily_prompt db clock jd = none) := by
  intro db clock jd rows
  constructor
  · unfold promptSendCount
    cases send_daily_prompt db clock jd <;> simp
  · intro hpt user huser hex
    simp [send_daily_prompt, huser, hpt, hex]

/-- Witness for C1: user 1 already answered gratitude for local date 5,
so the firing sends nothing. -/
theorem c1_prompt_at_most_once_per_day_witness :
    promptSendCount
        { emptyDB with
            users := [⟨1, 10, ⟨0, 0⟩⟩],
            gratitudes := [⟨1, 5, ['o', 'k'], ⟨5, 0⟩⟩] }
        ⟨5, fun _ => 5⟩ ⟨10, 1, "gratitude"⟩ ≤ 1 ∧
      send_daily_prompt
        { emptyDB with
            users := [⟨1, 10, ⟨0, 0⟩⟩],
            gratitudes := [⟨1, 5, ['o', 'k'], ⟨5, 0⟩⟩] }
        ⟨5, fun _ => 5⟩ ⟨10, 1, "gratitude"⟩ = none := by
  refine ⟨(c1_prompt_at_most_once_per_day _ _ _ [⟨1, 5, ['o', 'k'], ⟨5, 0⟩⟩]).1,
    (c1_prompt_at_most_once_per_day _ _ _
      [⟨1, 5, ['o', 'k'], ⟨5, 0⟩⟩]).2 rfl ⟨1, 10, ⟨0, 0⟩⟩ rfl (by decide)⟩

theorem goalKeyCount_replaceFirst (goals : List GoalRow) (uid : Nat)
    (area text : String) (now : Nat) (uid' : Nat) (area' : String) :
    goalKeyCount (replaceFirstGoal goals uid area text now) uid' area' =
      goalKeyCount goals uid' area' := by
  induction goals with
  | nil => rfl
  | cons g gs ih =>
    unfold goalKeyCount at ih ⊢
    by_cases h : (g.user_id == uid && g.area == area) = true
    · simp only [replaceFirstGoal, h, if_true, List.filter_cons]
      split <;> simp
    · simp only [replaceFirstGoal, if_neg h]
      simp only [List.filter_cons]
      split <;> simp [ih]

theorem replaceFirst_keys (goals : List GoalRow) (uid : Nat)
    (area text : String) (now : Nat) :
    (replaceFirstGoal goals uid area text now).map (fun g => (g.user_id, g.area)) =
      goals.map fun g => (g.user_id, g.area) := by
  induction goals with
  | nil => rfl
  | cons g gs ih =>
    by_cases h : (g.user_id == uid && g.area == area) = true
    · simp only [replaceFirstGoal, h, if_true, List.map_cons]
    · simp only [replaceFirstGoal, if_neg h, List.map_cons, ih]

theorem length_le_eraseP_succ (p : GoalRow → Bool) (l : List GoalRow) :
    l.length ≤ (l.eraseP p).length + 1 := by
  induction l with
  | nil => simp
  | cons a t ih =>
    by_cases h : p a = true
    · rw [List.eraseP_cons_of_pos h]
      simp
    · rw [List.eraseP_cons_of_neg (by simp [h])]
      simp only [List.length_cons]
      omega

/-- C8: at most one `Goal` row exists per `(user_id, area)` (the
`uq_user_goal_area` constraint), and every goal operation preserves this:
`set_goal` updates the existing row in place (same length, same keys) and
inserts only when none exists; `delete_goal` removes at most one row. -/
theorem c8_goal_uniqueness :
    ∀ (goals : List GoalRow) (uid : Nat) (area text : String) (now : Nat),
      goalsUnique goals →
      goalsUnique (set_goal goals uid area text now) ∧
      goalsUnique (delete_goal goals uid area) ∧
      (get_by_user_and_area goals uid area = none →
        set_goal goals uid area text now = goals ++ [⟨uid, area, text, now⟩]) ∧
      (get_by_user_and_area goals uid area ≠ none →
        (set_goal goals uid area text now).length = goals.length ∧
        (set_goal goals uid area text now).map (fun g => (g.user_id, g.area)) =
          goals.map fun g => (g.user_id, g.area)) ∧
      goals.length ≤ (delete_goal goals uid area).length + 1 := by
  intro goals uid area text now hu
  refine ⟨?_, ?_, ?_, ?_, length_le_eraseP_succ _ _⟩
  · intro u a
    unfold set_goal
    cases hf : get_by_user_and_area goals uid area with
    | some g =>
      rw [goalKeyCount_replaceFirst]
      exact hu u a
    | none =>
      unfold goalsUnique goalKeyCount at hu
      unfold goalKeyCount
      rw [List.filter_append, List.length_append]
      cases hk : (uid == u && area == a) with
      | true =>
        simp only [Bool.and_eq_true, beq_iff_eq] at hk
        obtain ⟨h1, h2⟩ := hk
        subst h1; subst h2
        have hz : (goals.filter fun g => g.user_id == uid && g.area == area) = [] := by
          rw [List.filter_eq_nil_iff]
          exact fun g hg => List.find?_eq_none.mp hf g hg
        rw [hz]
        simp [List.filter]
      | false =>
        have hz2 : ([(⟨uid, area, text, now⟩ : GoalRow)].filter
            fun g => g.user_id == u && g.area == a) = [] := by
          simp only [List.filter]
          rw [show ((⟨uid, area, text, now⟩ : GoalRow).user_id == u &&
            (⟨uid, area, text, now⟩ : GoalRow).area == a) = false from hk]
        rw [hz2]
        simpa using hu u a
  · intro u a
    have hsub : List.Sublist
        ((delete_goal goals uid area).filter fun g => g.user_id == u && g.area == a)
        (goals.filter fun g => g.user_id == u && g.area == a) :=
      (List.eraseP_sublist _).filter _
    exact le_trans hsub.length_le (hu u a)
  · intro hf
    unfold set_goal
    rw [hf]
  · intro hf
    obtain ⟨g, hg⟩ := Option.ne_none_iff_exists'.mp hf
    unfold set_goal
    rw [hg]
    refine ⟨?_, replaceFirst_keys goals uid area text now⟩
    have hlen := congrArg List.length (replaceFirst_keys goals uid area text now)
    simpa using hlen

/-- Witness for C8 on a one-row goal table. -/
theorem c8_goal_uniqueness_witness :
    goalsUnique (set_goal [⟨1, "sleep", "8h", 0⟩] 1 "sleep" "9h" 1) ∧
      set_goal [⟨1, "sleep", "8h", 0⟩] 1 "food" "fruit" 1 =
        [⟨1, "sleep", "8h", 0⟩] ++ [⟨1, "food", "fruit", 1⟩] ∧
      (set_goal [⟨1, "sleep", "8h", 0⟩] 1 "sleep" "9h" 1).length = 1 := by
  have hu : goalsUnique [(⟨1, "sleep", "8h", 0⟩ : GoalRow)] := by
    intro u a
    unfold goalKeyCount
    cases h : ([(⟨1, "sleep", "8h", 0⟩ : GoalRow)].filter
        fun g => g.user_id == u && g.area == a) with
    | nil => simp [h]
    | cons x t =>
      have := congrArg List.length h
      have hsub := (List.filter_sublist
        (l := [(⟨1, "sleep", "8h", 0⟩ : GoalRow)])
        (p := fun g => g.user_id == u && g.area == a)).length_le
      rw [h] at hsub
      simpa using hsub
  have h1 := c8_goal_uniqueness [⟨1, "sleep", "8h", 0⟩] 1 "sleep" "9h" 1 hu
  have h2 := c8_goal_uniqueness [⟨1, "sleep", "8h", 0⟩] 1 "food" "fruit" 1 hu
  refine ⟨h1.1, h2.2.2.1 (by decide), ?_⟩
  rw [(h1.2.2.2.1 (by decide)).1]
  rfl

theorem latestByCreatedAt_eq_none_iff (l : List TimezoneRow) :
    latestByCreatedAt l = none ↔ l = [] := by
  cases l with
  | nil => simp [latestByCreatedAt]
  | cons a t =>
    simp only [latestByCreatedAt]
    cases latestByCreatedAt t <;> simp
    split <;> simp

/-- The fold behind `get_current_timezone` returns a member whose
`created_at` is maximal. -/
theorem latestByCreatedAt_spec (l : List TimezoneRow) (r : TimezoneRow)
    (h : latestByCreatedAt l = some r) :
    r ∈ l ∧ ∀ x ∈ l, x.created_at ≤ r.created_at := by
  induction l generalizing r with
  | nil => simp [latestByCreatedAt] at h
  | cons a t ih =>
    simp only [latestByCreatedAt] at h
    split at h
    · next hb =>
      have ht : t = [] := (latestByCreatedAt_eq_none_iff t).mp hb
      cases h
      subst ht
      simp
    · next b hb =>
      by_cases hgt : b.created_at > a.created_at
      · rw [if_pos hgt] at h
        cases h
        obtain ⟨hmem, hbound⟩ := ih r hb
        exact ⟨List.mem_cons_of_mem a hmem,
          fun x hx => by
            rcases List.mem_cons.mp hx with hx | hx
            · subst hx; exact Nat.le_of_lt hgt
            · exact hbound x hx⟩
      · rw [if_neg hgt] at h
        cases h
        obtain ⟨-, hbound⟩ := ih b hb
        exact ⟨List.mem_cons_self _ _,
          fun x hx => by
            rcases List.mem_cons.mp hx with hx | hx
            · subst hx; exact Nat.le_refl _
            · exact Nat.le_trans (hbound x hx) (Nat.le_of_not_lt hgt)⟩

/-- Modelled from the spec (refinement target for C5): the record whose
`effective_from` makes it authoritative for date `d`, i.e. the one with
the greatest `effective_from` among records with `effective_from ≤ d`. -/
def specAuthoritativeTimezone (rows : List TimezoneRow) (d : Int) :
    Option TimezoneRow :=
  match rows with
  | [] => none
  | r :: rs =>
    let rest := specAuthoritativeTimezone rs d
    if r.effective_from ≤ d then
      match rest with
      | none => some r
      | some b => if b.effective_from > r.effective_from then some b else some r
    else rest

/-- Statement of claim C5 exactly as written: with more than one stored
timezone record, the record the code uses is the one that is
effective-from-authoritative for the given date. -/
def c5ClaimStatement : Prop :=
  ∀ (db : DB) (uid : Nat) (d : Int) (r : TimezoneRow),
    (userTimezones db uid).length > 1 →
    specAuthoritativeTimezone (userTimezones db uid) d = some r →
    get_current_timezone db uid = some r

/-- C5 counterexample: a record with `effective_from = 100` inserted at
time 1 is authoritative for date 100, but the code returns the record
inserted later (`created_at = 2`) whose `effective_from` is 0. -/
theorem c5_effective_from_counterexample : ¬ c5ClaimStatement := by
  intro h
  have hx := h
    { emptyDB with timezones :=
        [⟨1, "Asia/Kolkata", "+5:30", 100, 1⟩, ⟨1, "Europe/London", "+0:00", 0, 2⟩] }
    1 100 ⟨1, "Asia/Kolkata", "+5:30", 100, 1⟩ (by decide) (by decide)
  exact absurd hx (by decide)

/-- C5 (amended): `get_current_timezone` selects the most recently
inserted record — the member of the user's timezone rows with maximal
`created_at` — regardless of `effective_from`, which is stored and
displayed but never used for selection. -/
theorem c5_selection_by_insertion_time :
    ∀ (db : DB) (uid : Nat),
      (∀ r, get_current_timezone db uid = some r →
        r ∈ userTimezones db uid ∧
          ∀ x ∈ userTimezones db uid, x.created_at ≤ r.created_at) ∧
      (get_current_timezone db uid = none ↔ userTimezones db uid = []) :=
  fun db uid =>
    ⟨fun r h => latestByCreatedAt_spec (userTimezones db uid) r h,
     latestByCreatedAt_eq_none_iff (userTimezones db uid)⟩

/-- Witness for C5 (amended) on the two-record database: the returned
record is the one with the larger `created_at`. -/
theorem c5_selection_by_insertion_time_witness :
    (⟨1, "Europe/London", "+0:00", 0, 2⟩ : TimezoneRow) ∈
        userTimezones
          { emptyDB with timezones :=
              [⟨1, "Asia/Kolkata", "+5:30", 100, 1⟩, ⟨1, "Europe/London", "+0:00", 0, 2⟩] }
          1 ∧
      ∀ x ∈ userTimezones
          { emptyDB with timezones :=
              [⟨1, "Asia/Kolkata", "+5:30", 100, 1⟩, ⟨1, "Europe/London", "+0:00", 0, 2⟩] }
          1,
        x.created_at ≤ (⟨1, "Europe/London", "+0:00", 0, 2⟩ : TimezoneRow).created_at :=
  (c5_selection_by_insertion_time
    { emptyDB with timezones :=
        [⟨1, "Asia/Kolkata", "+5:30", 100, 1⟩, ⟨1, "Europe/London", "+0:00", 0, 2⟩] }
    1).1 ⟨1, "Europe/London", "+0:00", 0, 2⟩ (by decide)

theorem runInsertCommit_false (db : DB) (p : PendingRow) :
    runInsertCommit db p false = db := rfl

theorem runInsertCommit_true (db : DB) (p : PendingRow) :
    runInsertCommit db p true = applyRow db p := rfl

theorem get_user_timezone_applyReflection (db : DB) (pt : PromptTable)
    (r : ReflectionRow) (uid : Nat) :
    get_user_timezone (applyRow db (.reflection pt r)) uid =
      get_user_timezone db uid := by
  cases pt <;> rfl

theorem user_settings_applyReflection (db : DB) (pt : PromptTable)
    (r : ReflectionRow) :
    (applyRow db (.reflection pt r)).user_settings = db.user_settings := by
  cases pt <;> rfl

/-- Closed form of a `save_prompt` whose record commit succeeds: the
reflection row is inserted, and the default settings row is additionally
inserted exactly when the reminders path runs `get_or_create` on a user
with a resolvable timezone and no settings row. -/
theorem save_prompt_true_eq (db : DB) (pt : PromptTable) (chat_id : Int)
    (d : Int) (items : List (List Char)) (ndt : PyDateTime)
    (hasJQ okS : Bool) (user : UserRow)
    (h : get_user_by_chat_id db chat_id = some user) :
    save_prompt db pt chat_id d items ndt hasJQ true okS =
      (if (promptHasReminders pt && hasJQ && okS &&
            (get_user_timezone db user.id).isSome &&
            (db.user_settings.find? (·.user_id == user.id)).isNone) = true
       then { applyRow db (.reflection pt ⟨user.id, d, join_items items, ndt⟩) with
                user_settings := db.user_settings ++ [defaultSettings user.id] }
       else applyRow db (.reflection pt ⟨user.id, d, join_items items, ndt⟩)) := by
  simp only [save_prompt, h, runInsertCommit_true, Bool.true_and]
  unfold schedule_theme_reminders_db
  rw [get_user_timezone_applyReflection, user_settings_applyReflection]
  cases hb : (promptHasReminders pt && hasJQ) with
  | false =>
    have hc : (promptHasReminders pt && hasJQ && okS &&
        (get_user_timezone db user.id).isSome &&
        (db.user_settings.find? (·.user_id == user.id)).isNone) = false := by
      simp [hb]
    simp [hb, hc]
  | true =>
    cases htz : get_user_timezone db user.id with
    | none => simp [hb, htz]
    | some tz =>
      cases hf : db.user_settings.find? (·.user_id == user.id) with
      | some s => simp [hb, htz, hf]
      | none => cases okS <;> simp [hb, htz, hf]

/-- C6: every persisting operation is atomic at row granularity through
try/commit/rollback.  If a commit raises, the session is rolled back and
the database is unchanged; each successful commit appends exactly its
committed row (for `save_prompt` there are up to two commits in the
source: the prompt record's, and — on the theme path — the default
settings row committed inside `UserSettings.get_or_create`). -/
theorem c6_try_commit_rollback :
    ∀ (db : DB) (chat_id : Int) (tzname tzoffset selection : String)
      (today : Int) (now : Nat) (pt : PromptTable) (items : List (List Char))
      (d : Int) (uid : Nat) (ndt : PyDateTime) (item : String) (hasJQ okS : Bool),
      ((save_timezone db chat_id tzname tzoffset selection today now false).1 = db) ∧
      (save_prompt db pt chat_id d items ndt hasJQ false okS = db) ∧
      ((save_current_item db item items d uid ndt false).1 = db) ∧
      (∀ user, get_user_by_chat_id db chat_id = some user →
        (save_timezone db chat_id tzname tzoffset selection today now true).1 =
          { db with timezones := db.timezones ++
            [⟨user.id, tzname, tzoffset, effective_date_of selection user today, now⟩] }) ∧
      (∀ user, get_user_by_chat_id db chat_id = some user →
        reflTable (save_prompt db pt chat_id d items ndt hasJQ true okS) pt =
          reflTable db pt ++ [⟨user.id, d, join_items items, ndt⟩] ∧
        ((save_prompt db pt chat_id d items ndt hasJQ true okS).user_settings =
            db.user_settings ∨
          (save_prompt db pt chat_id d items ndt hasJQ true okS).user_settings =
            db.user_settings ++ [defaultSettings user.id])) ∧
      (∀ db' out, save_current_item db item items d uid ndt true = (db', out) →
        out = RundownOutcome.saved → ∃ p, db' = applyRow db p) := by
  intro db chat_id tzname tzoffset selection today now pt items d uid ndt item hasJQ okS
  refine ⟨?_, ?_, ?_, ?_, ?_, ?_⟩
  · cases h : get_user_by_chat_id db chat_id <;>
      simp [save_timezone, h, runInsertCommit_false]
  · cases h : get_user_by_chat_id db chat_id <;>
      simp [save_prompt, h, runInsertCommit_false]
  · simp only [save_current_item, runInsertCommit_false]
    repeat' first
      | rfl
      | split
  · intro user h
    simp [save_timezone, h, runInsertCommit_true, applyRow]
  · intro user h
    rw [save_prompt_true_eq db pt chat_id d items ndt hasJQ okS user h]
    split
    · refine ⟨?_, Or.inr rfl⟩
      cases pt <;> rfl
    · refine ⟨?_, Or.inl (user_settings_applyReflection db pt _)⟩
      cases pt <;> rfl
  · intro db' out heq hout
    simp only [save_current_item] at heq
    split at heq
    · cases heq
      exact absurd hout (by decide)
    · split at heq
      · cases heq
        exact ⟨_, runInsertCommit_true db _⟩
      · split at heq
        · cases heq
          exact ⟨_, runInsertCommit_true db _⟩
        · split at heq
          · cases heq
            exact ⟨_, runInsertCommit_true db _⟩
          · split at heq
            · split at heq
              · cases heq
                exact absurd hout (by decide)
              · split at heq
                · split at heq
                  · cases heq
                    exact ⟨_, runInsertCommit_true db _⟩
                  · cases heq
                    exact absurd hout (by decide)
                · cases heq
                  exact absurd hout (by decide)
            · cases heq
              exact absurd hout (by decide)

/-- Witness for C6 on a one-user database: failed commit leaves the
database unchanged; successful commits add exactly the committed row. -/
theorem c6_try_commit_rollback_witness :
    (save_timezone { emptyDB with users := [⟨1, 10, ⟨0, 0⟩⟩] } 10 "Asia/Kolkata"
        "+5:30" "today" 7 3 false).1 = { emptyDB with users := [⟨1, 10, ⟨0, 0⟩⟩] } ∧
      (save_timezone { emptyDB with users := [⟨1, 10, ⟨0, 0⟩⟩] } 10 "Asia/Kolkata"
          "+5:30" "today" 7 3 true).1 =
        { emptyDB with
            users := [⟨1, 10, ⟨0, 0⟩⟩]
            timezones := [⟨1, "Asia/Kolkata", "+5:30", 7, 3⟩] } ∧
      ∃ p, (save_current_item { emptyDB with users := [⟨1, 10, ⟨0, 0⟩⟩] } "thought"
        [['h', 'i']] 7 1 ⟨7, 0⟩ true).1 =
          applyRow { emptyDB with users := [⟨1, 10, ⟨0, 0⟩⟩] } p := by
  have h := c6_try_commit_rollback { emptyDB with users := [⟨1, 10, ⟨0, 0⟩⟩] } 10
    "Asia/Kolkata" "+5:30" "today" 7 3 PromptTable.gratitude [['h', 'i']] 7 1
    ⟨7, 0⟩ "thought" true true
  refine ⟨h.1, ?_, ?_⟩
  · rw [h.2.2.2.1 ⟨1, 10, ⟨0, 0⟩⟩ rfl]
    rfl
  · exact h.2.2.2.2.2 _ _ rfl (by decide)

/-- Frame asserted by claim C7 as written: every table other than the
four reflection tables — `user_settings` included — is unchanged. -/
def unchangedOutsideReflections (db' db : DB) : Prop :=
  db'.users = db.users ∧ db'.timezones = db.timezones ∧
  db'.user_settings = db.user_settings ∧ db'.wakesleeps = db.wakesleeps ∧
  db'.foods = db.foods ∧ db'.waters = db.waters ∧ db'.gyms = db.gyms ∧
  db'.yogas = db.yogas ∧ db'.pranayams = db.pranayams ∧
  db'.thoughts = db.thoughts ∧ db'.tasks = db.tasks ∧ db'.goals = db.goals

/-- Frame: every table other than the four reflection tables and
`user_settings`. -/
def unchangedOutsideReflectionsSettings (db' db : DB) : Prop :=
  db'.users = db.users ∧ db'.timezones = db.timezones ∧
  db'.wakesleeps = db.wakesleeps ∧ db'.foods = db.foods ∧
  db'.waters = db.waters ∧ db'.gyms = db.gyms ∧ db'.yogas = db.yogas ∧
  db'.pranayams = db.pranayams ∧ db'.thoughts = db.thoughts ∧
  db'.tasks = db.tasks ∧ db'.goals = db.goals

/-- Frame: every table other than `timezones`. -/
def unchangedOutsideTimezones (db' db : DB) : Prop :=
  db'.users = db.users ∧ db'.user_settings = db.user_settings ∧
  db'.wakesleeps = db.wakesleeps ∧ db'.foods = db.foods ∧
  db'.waters = db.waters ∧ db'.gyms = db.gyms ∧ db'.yogas = db.yogas ∧
  db'.pranayams = db.pranayams ∧ db'.thoughts = db.thoughts ∧
  db'.tasks = db.tasks ∧ db'.gratitudes = db.gratitudes ∧
  db'.themes_of_the_day = db.themes_of_the_day ∧
  db'.affirmations = db.affirmations ∧ db'.self_loves = db.self_loves ∧
  db'.goals = db.goals

/-- Statement of claim C7 exactly as written: every successful
daily-prompt or timezone save adds exactly one row to its table and
leaves all other tables unchanged. -/
def c7ClaimStatement : Prop :=
  ∀ (db : DB) (pt : PromptTable) (chat_id : Int) (d : Int)
    (items : List (List Char)) (ndt : PyDateTime) (hasJQ okS : Bool)
    (tzname tzoffset selection : String) (today : Int) (now : Nat),
    (∀ user, get_user_by_chat_id db chat_id = some user →
      reflTable (save_prompt db pt chat_id d items ndt hasJQ true okS) pt =
        reflTable db pt ++ [⟨user.id, d, join_items items, ndt⟩] ∧
      (∀ pt', pt' ≠ pt →
        reflTable (save_prompt db pt chat_id d items ndt hasJQ true okS) pt' =
          reflTable db pt') ∧
      unchangedOutsideReflections
        (save_prompt db pt chat_id d items ndt hasJQ true okS) db) ∧
    (∀ user, get_user_by_chat_id db chat_id = some user →
      (save_timezone db chat_id tzname tzoffset selection today now true).1.timezones =
        db.timezones ++
          [⟨user.id, tzname, tzoffset, effective_date_of selection user today, now⟩] ∧
      unchangedOutsideTimezones
        (save_timezone db chat_id tzname tzoffset selection today now true).1 db)

/-- C7 counterexample: a successful theme-of-the-day save for a user with
a resolvable timezone and no `user_settings` row also inserts (and
commits) a default settings row — `save_prompt` calls
`schedule_theme_reminders`, which calls `UserSettings.get_or_create` — so
the `user_settings` table does not stay unchanged. -/
theorem c7_settings_row_counterexample : ¬ c7ClaimStatement := by
  intro h
  have hx := (h
    { emptyDB with
        users := [⟨1, 10, ⟨0, 0⟩⟩]
        timezones := [⟨1, "Asia/Kolkata", "+5:30", 0, 1⟩] }
    PromptTable.themeoftheday 10 5 [['o', 'k']] ⟨5, 0⟩ true true
    "Asia/Kolkata" "+5:30" "today" 7 3).1 ⟨1, 10, ⟨0, 0⟩⟩ rfl
  exact absurd hx.2.2.2.2.1 (by decide)

/-- C7 (amended): a successful `save_prompt` appends exactly one row to
its prompt's table and leaves the other reflection tables and every
non-settings table unchanged; `user_settings` is also unchanged *except*
that a theme-of-the-day save with a job queue additionally inserts the
default settings row when the user has a resolvable timezone and no
settings row yet (`schedule_theme_reminders` → `UserSettings.get_or_create`).
A successful `save_timezone` appends one `Timezone` row and leaves every
other table unchanged. -/
theorem c7_single_row_amended :
    ∀ (db : DB) (pt : PromptTable) (chat_id : Int) (d : Int)
      (items : List (List Char)) (ndt : PyDateTime) (hasJQ okS : Bool)
      (tzname tzoffset selection : String) (today : Int) (now : Nat),
      (∀ user, get_user_by_chat_id db chat_id = some user →
        reflTable (save_prompt db pt chat_id d items ndt hasJQ true okS) pt =
          reflTable db pt ++ [⟨user.id, d, join_items items, ndt⟩] ∧
        (∀ pt', pt' ≠ pt →
          reflTable (save_prompt db pt chat_id d items ndt hasJQ true okS) pt' =
            reflTable db pt') ∧
        (save_prompt db pt chat_id d items ndt hasJQ true okS).user_settings =
          (if (promptHasReminders pt && hasJQ && okS &&
                (get_user_timezone db user.id).isSome &&
                (db.user_settings.find? (·.user_id == user.id)).isNone) = true
           then db.user_settings ++ [defaultSettings user.id]
           else db.user_settings) ∧
        unchangedOutsideReflectionsSettings
          (save_prompt db pt chat_id d items ndt hasJQ true okS) db) ∧
      (∀ user, get_user_by_chat_id db chat_id = some user →
        (save_timezone db chat_id tzname tzoffset selection today now true).1.timezones =
          db.timezones ++
            [⟨user.id, tzname, tzoffset, effective_date_of selection user today, now⟩] ∧
        unchangedOutsideTimezones
          (save_timezone db chat_id tzname tzoffset selection today now true).1 db) := by
  intro db pt chat_id d items ndt hasJQ okS tzname tzoffset selection today now
  constructor
  · intro user h
    rw [save_prompt_true_eq db pt chat_id d items ndt hasJQ okS user h]
    refine ⟨?_, ?_, ?_, ?_⟩
    · split <;> (cases pt <;> rfl)
    · intro pt' hne
      split <;> (cases pt <;> cases pt' <;> first | exact absurd rfl hne | rfl)
    · split
      · rfl
      · exact user_settings_applyReflection db pt _
    · split <;> (cases pt <;>
        exact ⟨rfl, rfl, rfl, rfl, rfl, rfl, rfl, rfl, rfl, rfl, rfl⟩)
  · intro user h
    simp [save_timezone, h, runInsertCommit_true, applyRow, unchangedOutsideTimezones]

/-- Witness for C7 (amended): the theme save for a settings-less user
with a timezone adds the theme row and the default settings row; a
gratitude save leaves `user_settings` empty. -/
theorem c7_single_row_amended_witness :
    reflTable (save_prompt
        { emptyDB with
            users := [⟨1, 10, ⟨0, 0⟩⟩]
            timezones := [⟨1, "Asia/Kolkata", "+5:30", 0, 1⟩] }
        PromptTable.themeoftheday 10 5 [['o', 'k']] ⟨5, 0⟩ true true true)
      PromptTable.themeoftheday =
        [⟨1, 5, join_items [['o', 'k']], ⟨5, 0⟩⟩] ∧
    (save_prompt
        { emptyDB with
            users := [⟨1, 10, ⟨0, 0⟩⟩]
            timezones := [⟨1, "Asia/Kolkata", "+5:30", 0, 1⟩] }
        PromptTable.themeoftheday 10 5 [['o', 'k']] ⟨5, 0⟩ true true true).user_settings =
      [defaultSettings 1] ∧
    (save_prompt
        { emptyDB with
            users := [⟨1, 10, ⟨0, 0⟩⟩]
            timezones := [⟨1, "Asia/Kolkata", "+5:30", 0, 1⟩] }
        PromptTable.gratitude 10 5 [['o', 'k']] ⟨5, 0⟩ true true true).user_settings =
      [] := by
  have h1 := (c7_single_row_amended
    { emptyDB with
        users := [⟨1, 10, ⟨0, 0⟩⟩]
        timezones := [⟨1, "Asia/Kolkata", "+5:30", 0, 1⟩] }
    PromptTable.themeoftheday 10 5 [['o', 'k']] ⟨5, 0⟩ true true
    "Asia/Kolkata" "+5:30" "today" 7 3).1 ⟨1, 10, ⟨0, 0⟩⟩ rfl
  have h2 := (c7_single_row_amended
    { emptyDB with
        users := [⟨1, 10, ⟨0, 0⟩⟩]
        timezones := [⟨1, "Asia/Kolkata", "+5:30", 0, 1⟩] }
    PromptTable.gratitude 10 5 [['o', 'k']] ⟨5, 0⟩ true true
    "Asia/Kolkata" "+5:30" "today" 7 3).1 ⟨1, 10, ⟨0, 0⟩⟩ rfl
  exact ⟨h1.1, h1.2.2.1.trans (by decide), h2.2.2.1.trans (by decide)⟩

/-- Condition of claim C4, stated as written: the user has no record of
the activity whose date field equals the local current date; for water, no
positive `amount_ml` total for today. -/
@[reducible]
def c4ClaimCondition (db : DB) (uid : Nat) (today : Int) : String → Prop
  | "sleep" => ∀ r ∈ db.wakesleeps, r.user_id = uid → r.wakeuptime.dateOf ≠ today
  | "food" => ∀ r ∈ db.foods, r.user_id = uid → r.food_time.dateOf ≠ today
  | "water" => ¬(0 < waterTotalToday db uid today)
  | "gym" => ∀ r ∈ db.gyms, r.user_id = uid → r.gym_datetime.dateOf ≠ today
  | "yoga" => ∀ r ∈ db.yogas, r.user_id = uid → r.yoga_datetime.dateOf ≠ today
  | "pranayam" =>
    ∀ r ∈ db.pranayams, r.user_id = uid → r.pranayam_datetime.dateOf ≠ today
  | "thought" => ∀ r ∈ db.thoughts, r.user_id = uid → r.created_at.dateOf ≠ today
  | "task" => ∀ r ∈ db.tasks, r.user_id = uid → r.created_at.dateOf ≠ today
  | "gratitude" => ∀ r ∈ db.gratitudes, r.user_id = uid → r.prompt_date ≠ today
  | "themeoftheday" =>
    ∀ r ∈ db.themes_of_the_day, r.user_id = uid → r.prompt_date ≠ today
  | "affirmation" => ∀ r ∈ db.affirmations, r.user_id = uid → r.prompt_date ≠ today
  | "selflove" => ∀ r ∈ db.self_loves, r.user_id = uid → r.prompt_date ≠ today
  | _ => True

/-- Statement of claim C4 exactly as written. -/
def c4ClaimStatement : Prop :=
  ∀ (db : DB) (uid : Nat) (today : Int) (k : String), k ∈ RUNDOWN_ORDER →
    (k ∈ rundownMissing db uid today ↔ c4ClaimCondition db uid today k)

/-- C4 counterexample: with a single water row of `amount_ml = -100`
(reachable through `parse_water_amount`, which accepts negative numbers),
today's total is `-100`: not positive, yet truthy, so the code marks water
as logged and leaves it out of the missing list. -/
theorem c4_missing_counterexample : ¬ c4ClaimStatement := by
  intro h
  have hx := h { emptyDB with waters := [⟨1, ⟨0, 0⟩, -100, ⟨0, 0⟩⟩] } 1 0 "water"
    (by decide)
  exact absurd
    (hx.mpr (show ¬((0 : Int) <
      waterTotalToday { emptyDB with waters := [⟨1, ⟨0, 0⟩, -100, ⟨0, 0⟩⟩] } 1 0)
      by decide))
    (by decide)

/-- Condition of C4 as amended: for water the reported condition is a
*zero* total (Python truthiness of the summed `amount_ml`), not a
non-positive one; all other items are unchanged. -/
@[reducible]
def c4AmendedCondition (db : DB) (uid : Nat) (today : Int) (k : String) : Prop :=
  if k = "water" then waterTotalToday db uid today = 0
  else c4ClaimCondition db uid today k

/-- C4 (amended): a key of `RUNDOWN_ORDER` is reported missing iff the
user has no record of that activity dated today — where for water the
test is that today's `amount_ml` total is zero. -/
theorem c4_missing_amended :
    ∀ (db : DB) (uid : Nat) (today : Int) (k : String), k ∈ RUNDOWN_ORDER →
      (k ∈ rundownMissing db uid today ↔ c4AmendedCondition db uid today k) := by
  intro db uid today k hk
  have hmem : k ∈ rundownMissing db uid today ↔
      statusLogged (get_today_status db uid today) k = false := by
    unfold rundownMissing
    rw [List.mem_filter]
    constructor
    · intro hx
      simpa using hx.2
    · intro hb
      exact ⟨hk, by simpa using hb⟩
  rw [hmem]
  simp only [RUNDOWN_ORDER, List.mem_cons, List.not_mem_nil, or_false] at hk
  rcases hk with rfl | rfl | rfl | rfl | rfl | rfl | rfl | rfl | rfl | rfl | rfl | rfl <;>
    simp [statusLogged, get_today_status, c4AmendedCondition, c4ClaimCondition,
      get_for_date, List.isEmpty_iff, List.filter_eq_nil_iff, List.find?_eq_none,
      not_and, Bool.and_eq_true, beq_iff_eq]

/-- Witness for C4 (amended): on the empty database the water total is
zero, so water is reported missing. -/
theorem c4_missing_amended_witness :
    "water" ∈ rundownMissing emptyDB 1 0 :=
  (c4_missing_amended emptyDB 1 0 "water" (by decide)).mpr
    (show waterTotalToday emptyDB 1 0 = 0 by decide)

/-! ## Scheduler lemmas for C2 and C3 -/

theorem mkLocalTime_eq_of_some {h m : Int} {tz : String} {lt : LocalTime}
    (hmk : mkLocalTime h m tz = some lt) : lt = ⟨h, m, tz⟩ := by
  unfold mkLocalTime at hmk
  split at hmk
  · cases hmk; rfl
  · cases hmk

theorem jobNameFor_ne_of_length {pt₁ pt₂ : String} (c : Int)
    (h : pt₁.length ≠ pt₂.length) : jobNameFor pt₁ c ≠ jobNameFor pt₂ c := by
  intro he
  apply h
  have hl := congrArg String.length he
  simp only [jobNameFor, String.length_append] at hl
  omega

/-- The four prompt types produce pairwise distinct job names for one
chat (their lengths differ). -/
theorem schedule_dict_names_pairwise (s : UserSettingsRow) (c : Int) :
    List.Pairwise (fun e₁ e₂ : String × List Char × Bool =>
      jobNameFor e₁.1 c ≠ jobNameFor e₂.1 c) (get_schedule_dict s) := by
  have h1 : jobNameFor "gratitude" c ≠ jobNameFor "themeoftheday" c :=
    jobNameFor_ne_of_length c (by decide)
  have h2 : jobNameFor "gratitude" c ≠ jobNameFor "affirmation" c :=
    jobNameFor_ne_of_length c (by decide)
  have h3 : jobNameFor "gratitude" c ≠ jobNameFor "selflove" c :=
    jobNameFor_ne_of_length c (by decide)
  have h4 : jobNameFor "themeoftheday" c ≠ jobNameFor "affirmation" c :=
    jobNameFor_ne_of_length c (by decide)
  have h5 : jobNameFor "themeoftheday" c ≠ jobNameFor "selflove" c :=
    jobNameFor_ne_of_length c (by decide)
  have h6 : jobNameFor "affirmation" c ≠ jobNameFor "selflove" c :=
    jobNameFor_ne_of_length c (by decide)
  unfold get_schedule_dict
  refine List.Pairwise.cons ?_ (List.Pairwise.cons ?_
    (List.Pairwise.cons ?_ (List.Pairwise.cons (by simp) List.Pairwise.nil)))
  · intro e he
    simp only [List.mem_cons, List.not_mem_nil, or_false] at he
    rcases he with rfl | rfl | rfl
    exacts [h1, h2, h3]
  · intro e he
    simp only [List.mem_cons, List.not_mem_nil, or_false] at he
    rcases he with rfl | rfl
    exacts [h4, h5]
  · intro e he
    simp only [List.mem_cons, List.not_mem_nil, or_false] at he
    rcases he with rfl
    exact h6

theorem scheduleOne_disabled (jq : List Job) (user : UserRow) (tz pt : String)
    (ts : List Char) :
    scheduleOne jq user tz pt ts false =
      (remove_job_by_name jq (jobNameFor pt user.chat_id), false) := rfl

theorem scheduleOne_parse_fail (jq : List Job) (user : UserRow) (tz pt : String)
    {ts : List Char} (hp : parse_time_string ts = none) :
    scheduleOne jq user tz pt ts true =
      (remove_job_by_name jq (jobNameFor pt user.chat_id), true) := by
  simp [scheduleOne, hp]

theorem scheduleOne_mk_fail (jq : List Job) (user : UserRow) (tz pt : String)
    {ts : List Char} {hm : Int × Int} (hp : parse_time_string ts = some hm)
    (hmk : mkLocalTime hm.1 hm.2 tz = none) :
    scheduleOne jq user tz pt ts true =
      (remove_job_by_name jq (jobNameFor pt user.chat_id), true) := by
  simp [scheduleOne, hp, hmk]

theorem scheduleOne_success (jq : List Job) (user : UserRow) (tz pt : String)
    {ts : List Char} {hm : Int × Int} {lt : LocalTime}
    (hp : parse_time_string ts = some hm)
    (hmk : mkLocalTime hm.1 hm.2 tz = some lt) :
    scheduleOne jq user tz pt ts true =
      (remove_job_by_name jq (jobNameFor pt user.chat_id) ++
        [⟨jobNameFor pt user.chat_id, lt, [0, 1, 2, 3, 4, 5, 6],
          ⟨user.chat_id, user.id, pt⟩⟩], false) := by
  simp [scheduleOne, hp, hmk]

theorem mem_remove_job_by_name {jq : List Job} {j : Job} (hj : j ∈ jq)
    {n : String} (hn : j.name ≠ n) : j ∈ remove_job_by_name jq n := by
  unfold remove_job_by_name
  rw [List.mem_filter]
  exact ⟨hj, by simpa [bne_iff_ne] using hn⟩

theorem remove_job_by_name_of_fresh {jq : List Job} {n : String}
    (h : ∀ j ∈ jq, j.name ≠ n) : remove_job_by_name jq n = jq := by
  unfold remove_job_by_name
  rw [List.filter_eq_self]
  intro j hj
  simpa [bne_iff_ne] using h j hj

/-- Jobs already in the queue survive the scheduling loop provided no
remaining prompt type reuses their name. -/
theorem scheduleLoop_mem_preserved (user : UserRow) (tz : String) :
    ∀ (entries : List (String × List Char × Bool)) (jq : List Job) (j : Job),
      j ∈ jq → (∀ e ∈ entries, j.name ≠ jobNameFor e.1 user.chat_id) →
      j ∈ (scheduleLoop user tz jq entries).1 := by
  intro entries
  induction entries with
  | nil => intro jq j hj _; exact hj
  | cons e rest ih =>
    intro jq j hj hname
    obtain ⟨pt, ts, en⟩ := e
    have hn : j.name ≠ jobNameFor pt user.chat_id :=
      hname (pt, ts, en) (List.mem_cons_self _ _)
    have hj1 : j ∈ remove_job_by_name jq (jobNameFor pt user.chat_id) :=
      mem_remove_job_by_name hj hn
    have hrest : ∀ e' ∈ rest, j.name ≠ jobNameFor e'.1 user.chat_id :=
      fun e' he' => hname e' (List.mem_cons_of_mem _ he')
    cases en with
    | false =>
      simp only [scheduleLoop, scheduleOne_disabled]
      exact ih _ j hj1 hrest
    | true =>
      cases hp : parse_time_string ts with
      | none =>
        simp only [scheduleLoop, scheduleOne_parse_fail jq user tz pt hp]
        exact hj1
      | some hm =>
        cases hmk : mkLocalTime hm.1 hm.2 tz with
        | none =>
          simp only [scheduleLoop, scheduleOne_mk_fail jq user tz pt hp hmk]
          exact hj1
        | some lt =>
          simp only [scheduleLoop, scheduleOne_success jq user tz pt hp hmk]
          exact ih _ j (List.mem_append_left _ hj1) hrest

/-- Every enabled prompt whose time parses and validates ends up
registered as a job with the given local time, all seven days, and the
prompt data, provided every enabled entry is schedulable (an earlier bad
entry would abort the loop) and the entries have distinct job names. -/
theorem scheduleLoop_adds (user : UserRow) (tz : String) :
    ∀ (entries : List (String × List Char × Bool)) (jq : List Job)
      (pt : String) (ts : List Char) (hm : Int × Int) (lt : LocalTime),
      (pt, ts, true) ∈ entries →
      (∀ e ∈ entries, e.2.2 = true →
        ∃ hm' lt', parse_time_string e.2.1 = some hm' ∧
          mkLocalTime hm'.1 hm'.2 tz = some lt') →
      List.Pairwise (fun e₁ e₂ =>
        jobNameFor e₁.1 user.chat_id ≠ jobNameFor e₂.1 user.chat_id) entries →
      parse_time_string ts = some hm →
      mkLocalTime hm.1 hm.2 tz = some lt →
      (⟨jobNameFor pt user.chat_id, lt, [0, 1, 2, 3, 4, 5, 6],
        ⟨user.chat_id, user.id, pt⟩⟩ : Job) ∈ (scheduleLoop user tz jq entries).1 := by
  intro entries
  induction entries with
  | nil => intro jq pt ts hm lt hmem; simp at hmem
  | cons e rest ih =>
    intro jq pt ts hm lt hmem hall hpw hp hmk
    rcases List.mem_cons.mp hmem with heq | hmem'
    · subst heq
      simp only [scheduleLoop, scheduleOne_success jq user tz pt hp hmk]
      refine scheduleLoop_mem_preserved user tz rest _ _
        (List.mem_append_right _ (List.mem_singleton_self _)) ?_
      intro e' he'
      exact (List.pairwise_cons.mp hpw).1 e' he'
    · obtain ⟨pt', ts', en'⟩ := e
      have hall' : ∀ e' ∈ rest, e'.2.2 = true →
          ∃ hm' lt', parse_time_string e'.2.1 = some hm' ∧
            mkLocalTime hm'.1 hm'.2 tz = some lt' :=
        fun e' he' => hall e' (List.mem_cons_of_mem _ he')
      have hpw' := (List.pairwise_cons.mp hpw).2
      cases en' with
      | false =>
        simp only [scheduleLoop, scheduleOne_disabled]
        exact ih _ pt ts hm lt hmem' hall' hpw' hp hmk
      | true =>
        obtain ⟨hm', lt', hp', hmk'⟩ :=
          hall (pt', ts', true) (List.mem_cons_self _ _) rfl
        simp only [scheduleLoop, scheduleOne_success jq user tz pt' hp' hmk']
        exact ih _ pt ts hm lt hmem' hall' hpw' hp hmk

/-- C2: for a user with a valid stored timezone, every enabled prompt is
registered as a daily job firing at the configured `HH:MM` interpreted in
the user's own timezone (a time value carrying that tz), on all seven days
of the week.  (The hypothesis that every enabled entry is schedulable is
needed because a malformed earlier entry aborts the loop.) -/
theorem c2_enabled_prompts_scheduled_locally :
    ∀ (db : DB) (user : UserRow) (tz : String),
      get_user_timezone db user.id = some tz →
      (∀ e ∈ get_schedule_dict (get_or_create_settings db user.id), e.2.2 = true →
        ∃ hm' lt', parse_time_string e.2.1 = some hm' ∧
          mkLocalTime hm'.1 hm'.2 tz = some lt') →
      ∀ (pt : String) (ts : List Char) (hm : Int × Int) (lt : LocalTime),
        (pt, ts, true) ∈ get_schedule_dict (get_or_create_settings db user.id) →
        parse_time_string ts = some hm →
        mkLocalTime hm.1 hm.2 tz = some lt →
        lt = ⟨hm.1, hm.2, tz⟩ ∧
        (⟨jobNameFor pt user.chat_id, lt, [0, 1, 2, 3, 4, 5, 6],
          ⟨user.chat_id, user.id, pt⟩⟩ : Job) ∈
          (schedule_daily_prompts_for_user [] db user).1 := by
  intro db user tz htz hall pt ts hm lt hmem hp hmk
  refine ⟨mkLocalTime_eq_of_some hmk, ?_⟩
  unfold schedule_daily_prompts_for_user
  rw [htz]
  exact scheduleLoop_adds user tz _ [] pt ts hm lt hmem hall
    (schedule_dict_names_pairwise _ _) hp hmk

/-- Witness for C2: with the default settings and an `Asia/Kolkata`
timezone record, the gratitude prompt is registered daily at 07:00 in
`Asia/Kolkata`. -/
theorem c2_enabled_prompts_scheduled_locally_witness :
    (⟨jobNameFor "gratitude" 5, ⟨7, 0, "Asia/Kolkata"⟩, [0, 1, 2, 3, 4, 5, 6],
      ⟨5, 1, "gratitude"⟩⟩ : Job) ∈
      (schedule_daily_prompts_for_user []
        { emptyDB with timezones := [⟨1, "Asia/Kolkata", "+5:30", 0, 1⟩] }
        ⟨1, 5, ⟨0, 0⟩⟩).1 := by
  have h := c2_enabled_prompts_scheduled_locally
    { emptyDB with timezones := [⟨1, "Asia/Kolkata", "+5:30", 0, 1⟩] }
    ⟨1, 5, ⟨0, 0⟩⟩ "Asia/Kolkata" (by decide) ?_ "gratitude" "07:00".toList (7, 0)
    ⟨7, 0, "Asia/Kolkata"⟩ (by decide) (by decide) (by decide)
  · exact h.2
  · intro e he _
    simp only [get_or_create_settings, get_schedule_dict, defaultSettings,
      List.find?_nil, Option.getD_none, List.mem_cons, List.not_mem_nil,
      or_false] at he
    rcases he with rfl | rfl | rfl | rfl
    · exact ⟨(7, 0), ⟨7, 0, "Asia/Kolkata"⟩, by decide, by decide⟩
    · exact ⟨(7, 30), ⟨7, 30, "Asia/Kolkata"⟩, by decide, by decide⟩
    · exact ⟨(8, 0), ⟨8, 0, "Asia/Kolkata"⟩, by decide, by decide⟩
    · exact ⟨(21, 0), ⟨21, 0, "Asia/Kolkata"⟩, by decide, by decide⟩

/-- The local send times the loop registers, as a function of the
timezone and the schedule entries alone. -/
def loopTimesSpec (tz : String) : List (String × List Char × Bool) → List LocalTime
  | [] => []
  | (_, ts, en) :: rest =>
    if en then
      match parse_time_string ts with
      | none => []
      | some hm =>
        match mkLocalTime hm.1 hm.2 tz with
        | none => []
        | some lt => lt :: loopTimesSpec tz rest
    else loopTimesSpec tz rest

/-- On a fresh queue, the times of the registered jobs are exactly
`loopTimesSpec` of the timezone and entries. -/
theorem scheduleLoop_times (user : UserRow) (tz : String) :
    ∀ (entries : List (String × List Char × Bool)) (jq : List Job),
      (∀ j ∈ jq, ∀ e ∈ entries, j.name ≠ jobNameFor e.1 user.chat_id) →
      List.Pairwise (fun e₁ e₂ =>
        jobNameFor e₁.1 user.chat_id ≠ jobNameFor e₂.1 user.chat_id) entries →
      ((scheduleLoop user tz jq entries).1).map (·.time) =
        jq.map (·.time) ++ loopTimesSpec tz entries := by
  intro entries
  induction entries with
  | nil => intro jq _ _; simp [scheduleLoop, loopTimesSpec]
  | cons e rest ih =>
    intro jq hfresh hpw
    obtain ⟨pt, ts, en⟩ := e
    have hrm : remove_job_by_name jq (jobNameFor pt user.chat_id) = jq :=
      remove_job_by_name_of_fresh fun j hj =>
        hfresh j hj (pt, ts, en) (List.mem_cons_self _ _)
    have hfresh' : ∀ j ∈ jq, ∀ e' ∈ rest, j.name ≠ jobNameFor e'.1 user.chat_id :=
      fun j hj e' he' => hfresh j hj e' (List.mem_cons_of_mem _ he')
    have hpw' := (List.pairwise_cons.mp hpw).2
    cases en with
    | false =>
      simp only [scheduleLoop, scheduleOne_disabled, hrm, loopTimesSpec,
        Bool.false_eq_true, if_false]
      exact ih jq hfresh' hpw'
    | true =>
      cases hp : parse_time_string ts with
      | none =>
        simp only [scheduleLoop, scheduleOne_parse_fail jq user tz pt hp, hrm,
          loopTimesSpec, if_true, hp]
        simp
      | some hm =>
        cases hmk : mkLocalTime hm.1 hm.2 tz with
        | none =>
          simp only [scheduleLoop, scheduleOne_mk_fail jq user tz pt hp hmk, hrm,
            loopTimesSpec, if_true, hp, hmk]
          simp
        | some lt =>
          simp only [scheduleLoop, scheduleOne_success jq user tz pt hp hmk, hrm,
            loopTimesSpec, if_true, hp, hmk, Bool.false_eq_true, if_false]
          have hq : ∀ j ∈ jq ++ [(⟨jobNameFor pt user.chat_id, lt,
              [0, 1, 2, 3, 4, 5, 6], ⟨user.chat_id, user.id, pt⟩⟩ : Job)],
              ∀ e' ∈ rest, j.name ≠ jobNameFor e'.1 user.chat_id := by
            intro j hj e' he'
            rcases List.mem_append.mp hj with hj | hj
            · exact hfresh' j hj e' he'
            · rw [List.mem_singleton.mp hj]
              exact (List.pairwise_cons.mp hpw).1 e' he'
          rw [ih _ hq hpw']
          simp [List.append_assoc]

/-- The send times registered by `schedule_daily_prompts_for_user` on a
fresh queue. -/
def registeredSendTimes (db : DB) (user : UserRow) : List LocalTime :=
  ((schedule_daily_prompts_for_user [] db user).1).map (·.time)

/-- Statement of claim C3 exactly as written: the registered local send
times are a function of the stored `timezone_offset` strings and the
configured `HH:MM` schedule strings. -/
def c3ClaimStatement : Prop :=
  ∀ (db₁ db₂ : DB) (u₁ u₂ : UserRow),
    (get_current_timezone db₁ u₁.id).map (·.timezone_offset) =
      (get_current_timezone db₂ u₂.id).map (·.timezone_offset) →
    get_schedule_dict (get_or_create_settings db₁ u₁.id) =
      get_schedule_dict (get_or_create_settings db₂ u₂.id) →
    registeredSendTimes db₁ u₁ = registeredSendTimes db₂ u₂

/-- C3 counterexample: two databases whose current timezone rows carry the
same `timezone_offset` string `"+5:30"` but different `timezone_name`s
produce different registered send times — the scheduler resolves
`timezone_name` through `pytz` and never reads `timezone_offset`. -/
theorem c3_offset_counterexample : ¬ c3ClaimStatement := by
  intro h
  have hx := h
    { emptyDB with timezones := [⟨1, "Asia/Kolkata", "+5:30", 0, 1⟩] }
    { emptyDB with timezones := [⟨1, "Europe/London", "+5:30", 0, 1⟩] }
    ⟨1, 5, ⟨0, 0⟩⟩ ⟨1, 5, ⟨0, 0⟩⟩ (by decide) (by decide)
  exact absurd hx (by decide)

/-- C3 (amended): the registered local send times are a function of the
stored `timezone_name` (resolved through `pytz`) and the configured
`HH:MM` schedule strings; the `timezone_offset` column is not consulted. -/
theorem c3_times_function_of_name :
    ∀ (db₁ db₂ : DB) (u₁ u₂ : UserRow),
      (get_current_timezone db₁ u₁.id).map (·.timezone_name) =
        (get_current_timezone db₂ u₂.id).map (·.timezone_name) →
      get_schedule_dict (get_or_create_settings db₁ u₁.id) =
        get_schedule_dict (get_or_create_settings db₂ u₂.id) →
      registeredSendTimes db₁ u₁ = registeredSendTimes db₂ u₂ := by
  intro db₁ db₂ u₁ u₂ hname hdict
  have htz : get_user_timezone db₁ u₁.id = get_user_timezone db₂ u₂.id := by
    unfold get_user_timezone
    cases h₁ : get_current_timezone db₁ u₁.id with
    | none =>
      cases h₂ : get_current_timezone db₂ u₂.id with
      | none => rfl
      | some r₂ => rw [h₁, h₂] at hname; simp at hname
    | some r₁ =>
      cases h₂ : get_current_timezone db₂ u₂.id with
      | none => rw [h₁, h₂] at hname; simp at hname
      | some r₂ =>
        rw [h₁, h₂] at hname
        simp only [Option.map_some', Option.some.injEq] at hname
        show pytzTimezone r₁.timezone_name = pytzTimezone r₂.timezone_name
        rw [hname]
  unfold registeredSendTimes schedule_daily_prompts_for_user
  rw [htz]
  cases hu : get_user_timezone db₂ u₂.id with
  | none => rfl
  | some tz =>
    rw [scheduleLoop_times u₁ tz _ [] (by simp) (schedule_dict_names_pairwise _ _),
      scheduleLoop_times u₂ tz _ [] (by simp) (schedule_dict_names_pairwise _ _),
      hdict]

/-- Witness for C3 (amended): same `timezone_name` with different (even
nonsensical) `timezone_offset` strings and different users yields the same
registered send times. -/
theorem c3_times_function_of_name_witness :
    registeredSendTimes
        { emptyDB with timezones := [⟨1, "Asia/Kolkata", "+5:30", 0, 1⟩] }
        ⟨1, 5, ⟨0, 0⟩⟩ =
      registeredSendTimes
        { emptyDB with timezones := [⟨2, "Asia/Kolkata", "+9:99", 7, 4⟩] }
        ⟨2, 6, ⟨1, 1⟩⟩ :=
  c3_times_function_of_name
    { emptyDB with timezones := [⟨1, "Asia/Kolkata", "+5:30", 0, 1⟩] }
    { emptyDB with timezones := [⟨2, "Asia/Kolkata", "+9:99", 7, 4⟩] }
    ⟨1, 5, ⟨0, 0⟩⟩ ⟨2, 6, ⟨1, 1⟩⟩ (by decide) (by decide)

/-! ## C10: the water-amount parser -/

/-- Characters a plain integer string may contain. -/
def plainIntChars : List Char :=
  ['0', '1', '2', '3', '4', '5', '6', '7', '8', '9', '+', '-']

theorem pyLower_eq_self {s : List Char} (h : ∀ c ∈ s, c ∈ plainIntChars) :
    pyLower s = s := by
  induction s with
  | nil => rfl
  | cons c cs ih =>
    have hc := h c (List.mem_cons_self _ _)
    have hlow : c.toLower = c := by fin_cases hc <;> decide
    show c.toLower :: pyLower cs = c :: cs
    rw [hlow, ih fun c' hc' => h c' (List.mem_cons_of_mem _ hc')]

theorem pyStrip_eq_self {s : List Char} (h : ∀ c ∈ s, c.isWhitespace = false) :
    pyStrip s = s := by
  have h1 : s.dropWhile Char.isWhitespace = s := by
    cases s with
    | nil => rfl
    | cons c cs =>
      rw [List.dropWhile_cons_of_neg]
      simp [h c (List.mem_cons_self _ _)]
  have h2 : s.reverse.dropWhile Char.isWhitespace = s.reverse := by
    cases hr : s.reverse with
    | nil => rfl
    | cons c cs =>
      rw [List.dropWhile_cons_of_neg]
      have hc : c ∈ s := by
        rw [← List.mem_reverse, hr]
        exact List.mem_cons_self _ _
      simp [h c hc]
  unfold pyStrip
  rw [h1, h2, List.reverse_reverse]

theorem containsSub_single_iff {c : Char} {s : List Char} :
    containsSub [c] s = true ↔ c ∈ s := by
  induction s with
  | nil => simp [containsSub]
  | cons d ds ih =>
    simp [containsSub, List.isPrefixOf, ih]

/-- C10: `parse_water_amount` on a plain integer string `n` returns
`n * 250` (glasses) when `n < 50` and `n` (milliliters) when `n ≥ 50`;
on input with no recognized unit and no parseable number it returns
`None`; and the rundown caller treats a returned `0` exactly like an
unparseable input (no row saved, water skipped). -/
theorem c10_parse_water_amount :
    (∀ (s : List Char) (n : Int),
      (∀ c ∈ s, c ∈ plainIntChars) → pyInt s = some n →
      parse_water_amount s = some (if n < 50 then n * 250 else n)) ∧
    (∀ s : List Char,
      containsSub ['m', 'l'] (pyStrip (pyLower s)) = false →
      containsSub ['l'] (pyStrip (pyLower s)) = false →
      containsSub ['g', 'l', 'a', 's', 's'] (pyStrip (pyLower s)) = false →
      pyInt (pyStrip (pyLower s)) = none →
      parse_water_amount s = none) ∧
    (∀ (db : DB) (items : List (List Char)) (txt : List Char) (today : Int)
      (uid : Nat) (now : PyDateTime) (ok : Bool) (user : UserRow),
      get_user_by_id db uid = some user →
      (parse_water_amount txt = some 0 ∨ parse_water_amount txt = none) →
      save_current_item db "water" (txt :: items) today uid now ok =
        (db, RundownOutcome.waterUnparsed)) := by
  refine ⟨?_, ?_, ?_⟩
  · intro s n hchars hint
    have hws : ∀ c ∈ s, c.isWhitespace = false := by
      intro c hc
      have := hchars c hc
      fin_cases this <;> decide
    have htext : pyStrip (pyLower s) = s := by
      rw [pyLower_eq_self hchars, pyStrip_eq_self hws]
    have hm : 'm' ∉ s := fun hmem => by
      have := hchars 'm' hmem
      revert this
      decide
    have hl : 'l' ∉ s := fun hmem => by
      have := hchars 'l' hmem
      revert this
      decide
    have hg : 'g' ∉ s := fun hmem => by
      have := hchars 'g' hmem
      revert this
      decide
    have hml : containsSub ['m', 'l'] s = false :=
      containsSub_eq_false_of_not_mem (by decide) hm
    have hl1 : containsSub ['l'] s = false :=
      containsSub_eq_false_of_not_mem (by decide) hl
    have hl2 : containsSub ['l', 'i', 't', 'e', 'r'] s = false :=
      containsSub_eq_false_of_not_mem (by decide) hl
    have hl3 : containsSub ['l', 'i', 't', 'r', 'e'] s = false :=
      containsSub_eq_false_of_not_mem (by decide) hl
    have hgl : containsSub ['g', 'l', 'a', 's', 's'] s = false :=
      containsSub_eq_false_of_not_mem (by decide) hg
    simp [parse_water_amount, htext, hml, hl1, hl2, hl3, hgl, hint]
  · intro s h1 h2 h3 h4
    have hl : 'l' ∉ pyStrip (pyLower s) := fun hmem =>
      by rw [containsSub_single_iff.mpr hmem] at h2; cases h2
    have hl2 : containsSub ['l', 'i', 't', 'e', 'r'] (pyStrip (pyLower s)) = false :=
      containsSub_eq_false_of_not_mem (by decide) hl
    have hl3 : containsSub ['l', 'i', 't', 'r', 'e'] (pyStrip (pyLower s)) = false :=
      containsSub_eq_false_of_not_mem (by decide) hl
    simp [parse_water_amount, h1, h2, h3, h4, hl2, hl3]
  · intro db items txt today uid now ok user huser hp
    have hpm : promptModelOf "water" = none := rfl
    simp only [save_current_item, huser, hpm]
    have ht : (("water" : String) == "thought") = false := by decide
    have hta : (("water" : String) == "task") = false := by decide
    have hw : (("water" : String) == "water") = true := by decide
    rw [ht, hta, hw]
    simp only [Bool.false_eq_true, if_false, if_true]
    rcases hp with hp | hp <;> simp [hp]

/-- Witness for C10: `"70"` stays 70 ml, and a parsed `0` makes the
rundown water save skip exactly like an unparseable input. -/
theorem c10_parse_water_amount_witness :
    parse_water_amount ['7', '0'] = some 70 ∧
      save_current_item { emptyDB with users := [⟨1, 10, ⟨0, 0⟩⟩] } "water"
        [['0']] 0 1 ⟨0, 0⟩ true =
        ({ emptyDB with users := [⟨1, 10, ⟨0, 0⟩⟩] }, RundownOutcome.waterUnparsed) := by
  constructor
  · have h := c10_parse_water_amount.1 ['7', '0'] 70 (by decide) (by decide)
    exact h.trans (by decide)
  · exact c10_parse_water_amount.2.2 _ [] ['0'] 0 1 ⟨0, 0⟩ true ⟨1, 10, ⟨0, 0⟩⟩ rfl
      (Or.inl (by decide))

end BlueberryBot
